import Mathlib

/-!
Verification development for the chess-chat coaching backend
(`src/backend/main.py`).

The file embeds, in order:
* a chess core modelling the python-chess capabilities the backend delegates
  to (board state, move generation, SAN parsing, FEN input/output) — the spec
  treats the rules engine as a given capability, so the embedding follows the
  library's observable behaviour, including its error taxonomy;
* the backend's own pure functions (`calculate_fens_for_sequence`,
  `mock_stockfish_analysis`, the response-text cleaning of `ask_coach`);
* a Python-semantics layer (JSON values, `json.loads`, truthiness,
  membership/indexing, iteration) needed to model the payload handling of the
  live branch of `ask_coach`;
* the orchestrator `ask_coach` (live mode) over an environment of external
  outcomes (engine analysis, language-model generation);
* the theorems settling the claims.
-/

namespace ChessChat

/-! ## Chess core -/

inductive PieceType where
  | pawn | knight | bishop | rook | queen | king
deriving DecidableEq, Repr

structure Piece where
  pt : PieceType
  white : Bool
deriving DecidableEq, Repr

/-- A move; `src`/`dst` are square indices (a1 = 0 … h8 = 63).  The Python
field names are `from_square`/`to_square` (`from` is a keyword in both
languages). -/
structure Move where
  src : Nat
  dst : Nat
  promo : Option PieceType := none
deriving DecidableEq, Repr

/-- python-chess `Move.null()`: both squares 0, no promotion. -/
def nullMove : Move := ⟨0, 0, none⟩

/-- The board as eight ranks of eight files (square `sq` lives at row
`sq / 8`, column `sq % 8`); an indexed collection like python-chess's
per-square lookup, shaped for cheap access. -/
abbrev BoardRep := List (List (Option Piece))

def boardGet (b : BoardRep) (sq : Nat) : Option Piece :=
  (b.getD (sq / 8) []).getD (sq % 8) none

def boardSet (b : BoardRep) (sq : Nat) (v : Option Piece) : BoardRep :=
  b.set (sq / 8) ((b.getD (sq / 8) []).set (sq % 8) v)

def emptyBoard : BoardRep := List.replicate 8 (List.replicate 8 none)

structure Position where
  board : BoardRep              -- 64 squares, a1 = 0 … h8 = 63
  turn : Bool                   -- true = White to move
  castling : List Nat           -- rook squares carrying castling rights
  epSquare : Option Nat
  halfmove : Nat
  fullmove : Nat
deriving DecidableEq, Repr

def fileOf (sq : Nat) : Nat := sq % 8
def rankOf (sq : Nat) : Nat := sq / 8

def sqFR (f r : Int) : Option Nat :=
  if 0 ≤ f ∧ f < 8 ∧ 0 ≤ r ∧ r < 8 then some (r.toNat * 8 + f.toNat) else none

def pieceAt (p : Position) (sq : Nat) : Option Piece := boardGet p.board sq

def occAt (p : Position) (sq : Nat) : Bool := (pieceAt p sq).isSome

def ownAt (p : Position) (sq : Nat) : Bool :=
  match pieceAt p sq with
  | some pc => pc.white == p.turn
  | none => false

def enemyAt (p : Position) (sq : Nat) : Bool :=
  match pieceAt p sq with
  | some pc => pc.white == !p.turn
  | none => false

/-- Walk a slider ray; the first occupied square (per `occ`) is included and
stops the ray, matching bitboard attack semantics. -/
def rayWalk (occ : Nat → Bool) : Int → Int → Int → Int → Nat → List Nat
  | _, _, _, _, 0 => []
  | f, r, df, dr, fuel + 1 =>
    match sqFR (f + df) (r + dr) with
    | none => []
    | some sq =>
      if occ sq then [sq] else sq :: rayWalk occ (f + df) (r + dr) df dr fuel

def deltaTargets (sq : Nat) (ds : List (Int × Int)) : List Nat :=
  ds.filterMap (fun d => sqFR ((fileOf sq : Int) + d.1) ((rankOf sq : Int) + d.2))

def knightDeltas : List (Int × Int) :=
  [(1,2),(2,1),(2,-1),(1,-2),(-1,-2),(-2,-1),(-2,1),(-1,2)]
def kingDeltas : List (Int × Int) :=
  [(0,1),(1,1),(1,0),(1,-1),(0,-1),(-1,-1),(-1,0),(-1,1)]
def rookDirs : List (Int × Int) := [(0,1),(1,0),(0,-1),(-1,0)]
def bishopDirs : List (Int × Int) := [(1,1),(1,-1),(-1,-1),(-1,1)]

def slideTargets (occ : Nat → Bool) (sq : Nat) (dirs : List (Int × Int)) : List Nat :=
  dirs.flatMap (fun d => rayWalk occ (fileOf sq) (rankOf sq) d.1 d.2 7)

def pawnAttackTargets (white : Bool) (sq : Nat) : List Nat :=
  let dr : Int := if white then 1 else -1
  deltaTargets sq [(-1, dr), (1, dr)]

/-- Squares attacked by the piece standing on `sq`, with slider blocking
determined by the occupancy predicate `occ` (python-chess `attacks_mask`
with an occupancy override, as used by the castling-path checks). -/
def attacksWithOcc (p : Position) (occ : Nat → Bool) (sq : Nat) : List Nat :=
  match pieceAt p sq with
  | none => []
  | some pc =>
    match pc.pt with
    | .pawn => pawnAttackTargets pc.white sq
    | .knight => deltaTargets sq knightDeltas
    | .king => deltaTargets sq kingDeltas
    | .bishop => slideTargets occ sq bishopDirs
    | .rook => slideTargets occ sq rookDirs
    | .queen => slideTargets occ sq (rookDirs ++ bishopDirs)

def attacksFrom (p : Position) (sq : Nat) : List Nat := attacksWithOcc p (occAt p) sq

def squaresAsc : List Nat := List.range 64
def squaresDesc : List Nat := (List.range 64).reverse

def pieceIs (p : Position) (sq : Nat) (white : Bool) (pt : PieceType) : Bool :=
  match pieceAt p sq with
  | some pc => pc.white == white && pc.pt == pt
  | none => false

/-- First occupied square (per `occ`) along a ray. -/
def firstOnRay (occ : Nat → Bool) : Int → Int → Int → Int → Nat → Option Nat
  | _, _, _, _, 0 => none
  | f, r, df, dr, fuel + 1 =>
    match sqFR (f + df) (r + dr) with
    | none => none
    | some sq =>
      if occ sq then some sq else firstOnRay occ (f + df) (r + dr) df dr fuel

/-- python-chess `attackers_mask` (here: its non-emptiness), computed from
the target square outwards: knight/king jumps and pawn sources are
occupancy-independent; on each slider ray the first occupied square (per
`occ`) attacks iff it holds a suitable enemy slider.  Extensionally this is
`target ∈ attacks_mask(attacker)` for some attacker of the colour. -/
def isAttackedWithOcc (p : Position) (occ : Nat → Bool) (byWhite : Bool) (target : Nat) : Bool :=
  (deltaTargets target knightDeltas).any (fun s => pieceIs p s byWhite .knight) ||
  (deltaTargets target kingDeltas).any (fun s => pieceIs p s byWhite .king) ||
  (pawnAttackTargets (!byWhite) target).any (fun s => pieceIs p s byWhite .pawn) ||
  rookDirs.any (fun d =>
    match firstOnRay occ (fileOf target) (rankOf target) d.1 d.2 7 with
    | some s => pieceIs p s byWhite .rook || pieceIs p s byWhite .queen
    | none => false) ||
  bishopDirs.any (fun d =>
    match firstOnRay occ (fileOf target) (rankOf target) d.1 d.2 7 with
    | some s => pieceIs p s byWhite .bishop || pieceIs p s byWhite .queen
    | none => false)

def isAttacked (p : Position) (byWhite : Bool) (target : Nat) : Bool :=
  isAttackedWithOcc p (occAt p) byWhite target

/-! Pseudo-legal move generation.  python-chess scans bitboards with
`scan_reversed`, i.e. from square 63 down to 0; the descending scans below
reproduce that order for the out-of-check generator.  (When the side to move
is in check python-chess switches to a specialised evasion generator whose
order differs; the claims settled here are stated relative to the program's
own generation order, and membership — which is what legality, ambiguity and
the mock-analysis selection depend on — is unaffected.) -/

def nonPawnMoves (p : Position) : List Move :=
  squaresDesc.flatMap (fun src =>
    match pieceAt p src with
    | some pc =>
      if pc.white == p.turn && pc.pt != .pawn then
        let atk := attacksFrom p src
        (squaresDesc.filter (fun t => atk.contains t && !ownAt p t)).map
          (fun t => { src := src, dst := t })
      else []
    | none => [])

def backrankBase (white : Bool) : Nat := if white then 0 else 56

/-- Squares strictly between two squares of the same rank. -/
def betweenOnRank (a b : Nat) : List Nat :=
  (List.range 64).filter (fun s => min a b < s && s < max a b)

/-- python-chess `clean_castling_rights` specialised to standard chess: a
right survives only if it sits on a corner square holding a same-coloured
rook and that colour's king is on its e-square. -/
def cleanCastlingRights (p : Position) : List Nat :=
  let rookOf : Bool → Nat → Bool := fun w sq =>
    match pieceAt p sq with
    | some pc => pc.pt == .rook && pc.white == w
    | none => false
  let kingOn : Bool → Nat → Bool := fun w sq =>
    match pieceAt p sq with
    | some pc => pc.pt == .king && pc.white == w
    | none => false
  p.castling.filter (fun sq =>
    ((sq == 0 || sq == 7) && rookOf true sq && kingOn true 4) ||
    ((sq == 56 || sq == 63) && rookOf false sq && kingOn false 60))

/-- python-chess `generate_castling_moves` (standard chess): for each
surviving rook-square right on the mover's backrank (scanned descending),
check emptiness of the king/rook paths (with king and rook lifted off) and
absence of attacks on the king's path and destination; yield the standard
`king two files` encoding. -/
def castlingMoves (p : Position) : List Move :=
  let br := backrankBase p.turn
  let kingSq := br + 4
  let clean := cleanCastlingRights p
  let cands := squaresDesc.filter (fun sq => clean.contains sq && br ≤ sq && sq ≤ br + 7)
  cands.filterMap (fun rookSq =>
    let aSide := rookSq < kingSq
    let kingTo := if aSide then br + 2 else br + 6
    let rookTo := if aSide then br + 3 else br + 5
    let kingPath := betweenOnRank kingSq kingTo
    let rookPath := betweenOnRank rookSq rookTo
    let occNoKR : Nat → Bool := fun s => s != kingSq && s != rookSq && occAt p s
    let blocked := (kingPath ++ rookPath ++ [kingTo, rookTo]).any occNoKR
    let occNoK : Nat → Bool := fun s => s != kingSq && occAt p s
    let pathAtt := (kingSq :: kingPath).any (fun s => isAttackedWithOcc p occNoK (!p.turn) s)
    let occCastled : Nat → Bool := fun s =>
      if s == rookTo then true else s != kingSq && s != rookSq && occAt p s
    let toAtt := isAttackedWithOcc p occCastled (!p.turn) kingTo
    if !blocked && !pathAtt && !toAtt then some { src := kingSq, dst := kingTo } else none)

def isPawnOfTurnAt (p : Position) (sq : Nat) : Bool :=
  match pieceAt p sq with
  | some pc => pc.pt == .pawn && pc.white == p.turn
  | none => false

/-- Promotions are expanded in python-chess order: queen, rook, bishop,
knight. -/
def promoExpand (src dst : Nat) (isPromoRank : Bool) : List Move :=
  if isPromoRank then
    [⟨src, dst, some .queen⟩, ⟨src, dst, some .rook⟩,
     ⟨src, dst, some .bishop⟩, ⟨src, dst, some .knight⟩]
  else [⟨src, dst, none⟩]

def pawnCaptureMoves (p : Position) : List Move :=
  squaresDesc.flatMap (fun src =>
    if isPawnOfTurnAt p src then
      let atk := pawnAttackTargets p.turn src
      (squaresDesc.filter (fun t => atk.contains t && enemyAt p t)).flatMap
        (fun t => promoExpand src t (rankOf t == 0 || rankOf t == 7))
    else [])

def pawnSingleMoves (p : Position) : List Move :=
  squaresDesc.flatMap (fun t =>
    if occAt p t then []
    else if p.turn then
      if decide (8 ≤ t) && isPawnOfTurnAt p (t - 8) then
        promoExpand (t - 8) t (rankOf t == 7)
      else []
    else
      if decide (t + 8 ≤ 63) && isPawnOfTurnAt p (t + 8) then
        promoExpand (t + 8) t (rankOf t == 0)
      else [])

/-- Double pawn advances; the landing-rank masks (`BB_RANK_3 | BB_RANK_4`
resp. `BB_RANK_6 | BB_RANK_5` in the source) are kept as in python-chess. -/
def pawnDoubleMoves (p : Position) : List Move :=
  squaresDesc.flatMap (fun t =>
    if occAt p t then []
    else if p.turn then
      if (rankOf t == 2 || rankOf t == 3) && decide (16 ≤ t) &&
          !occAt p (t - 8) && isPawnOfTurnAt p (t - 16) then
        [⟨t - 16, t, none⟩]
      else []
    else
      if (rankOf t == 4 || rankOf t == 5) && decide (t + 16 ≤ 63) &&
          !occAt p (t + 8) && isPawnOfTurnAt p (t + 16) then
        [⟨t + 16, t, none⟩]
      else [])

/-- python-chess `generate_pseudo_legal_ep`. -/
def epPseudoMoves (p : Position) : List Move :=
  match p.epSquare with
  | none => []
  | some ep =>
    if occAt p ep then []
    else
      let capRank := if p.turn then 4 else 3
      (squaresDesc.filter (fun src =>
        isPawnOfTurnAt p src && rankOf src == capRank &&
        (pawnAttackTargets p.turn src).contains ep)).map
        (fun src => { src := src, dst := ep })

def pseudoLegalMoves (p : Position) : List Move :=
  nonPawnMoves p ++ castlingMoves p ++ pawnCaptureMoves p ++
  pawnSingleMoves p ++ pawnDoubleMoves p ++ epPseudoMoves p

/-- python-chess `Board.is_en_passant`. -/
def isEnPassantMove (p : Position) (m : Move) : Bool :=
  p.epSquare == some m.dst &&
  (match pieceAt p m.src with | some pc => pc.pt == .pawn | none => false) &&
  (max m.src m.dst - min m.src m.dst == 7 || max m.src m.dst - min m.src m.dst == 9) &&
  !occAt p m.dst

/-- python-chess `Board.is_capture`: destination holds an enemy piece, or the
move is an en-passant capture. -/
def isCaptureMove (p : Position) (m : Move) : Bool :=
  enemyAt p m.dst || isEnPassantMove p m

/-- python-chess `Board.is_zeroing`: a pawn stands on either touched square,
or an enemy piece does (a capture). -/
def isZeroingMove (p : Position) (m : Move) : Bool :=
  (match pieceAt p m.src with | some pc => pc.pt == .pawn | none => false) ||
  (match pieceAt p m.dst with | some pc => pc.pt == .pawn | none => false) ||
  enemyAt p m.src || enemyAt p m.dst

/-- Castling in this embedding is the standard king-two-files encoding that
the generator and `parse_san` produce (python-chess converts to an internal
king-to-rook encoding inside `push`; the net board effect modelled here is
identical for standard chess). -/
def isCastlingEncoding (p : Position) (m : Move) : Bool :=
  (match pieceAt p m.src with
   | some pc => pc.pt == .king && pc.white == p.turn
   | none => false) &&
  (max (fileOf m.src) (fileOf m.dst) - min (fileOf m.src) (fileOf m.dst) == 2) &&
  rankOf m.src == rankOf m.dst

/-- python-chess `Board.push`, for the moves this program ever pushes
(generator output, `parse_san` results, null moves). -/
def push (p : Position) (m : Move) : Position :=
  let fullmove := if p.turn then p.fullmove else p.fullmove + 1
  if m == nullMove then
    { p with turn := !p.turn, epSquare := none,
             halfmove := p.halfmove + 1, fullmove := fullmove }
  else
    let half := if isZeroingMove p m then 0 else p.halfmove + 1
    let movedPt := match pieceAt p m.src with | some pc => pc.pt | none => PieceType.pawn
    let rights1 := p.castling.filter (fun s => s != m.src && s != m.dst)
    let rights := if movedPt == .king then
        rights1.filter (fun s => if p.turn then decide (8 ≤ s) else decide (s < 56))
      else rights1
    let diff : Int := (m.dst : Int) - (m.src : Int)
    let epNew : Option Nat :=
      if movedPt == .pawn then
        if diff == 16 && rankOf m.src == 1 then some (m.src + 8)
        else if diff == -16 && rankOf m.src == 6 then some (m.src - 8)
        else none
      else none
    let capSq := if p.turn then m.dst - 8 else m.dst + 8
    let b1 := boardSet p.board m.src none
    let b2 := if isEnPassantMove p m then boardSet b1 capSq none else b1
    let placedPt := match m.promo with | some pr => pr | none => movedPt
    let b3 :=
      if isCastlingEncoding p m then
        let br := backrankBase p.turn
        let aSide := fileOf m.dst < fileOf m.src
        let rookSq := if aSide then br else br + 7
        let rookTo := if aSide then br + 3 else br + 5
        boardSet (boardSet (boardSet b1 rookSq none) m.dst
            (some { pt := PieceType.king, white := p.turn })) rookTo
          (some { pt := PieceType.rook, white := p.turn })
      else boardSet b2 m.dst (some { pt := placedPt, white := p.turn })
    { board := b3, turn := !p.turn, castling := rights, epSquare := epNew,
      halfmove := half, fullmove := fullmove }

/-- python-chess `Board.king` (highest same-coloured king square, if any). -/
def kingSquareOf (p : Position) (white : Bool) : Option Nat :=
  squaresDesc.find? (fun sq =>
    match pieceAt p sq with
    | some pc => pc.pt == .king && pc.white == white
    | none => false)

/-- A pseudo-legal move is safe when the mover's king is not attacked in the
resulting position (extensionally python-chess `_is_safe`, which is an
optimised equivalent of exactly this make-and-test). -/
def leavesKingSafe (p : Position) (m : Move) : Bool :=
  let p2 := push p m
  match kingSquareOf p2 p.turn with
  | none => true
  | some ks => !isAttacked p2 (!p.turn) ks

/-- King safety with the mover's king square `k` computed once by the caller
(as python-chess does): the king's square after the move is `m.dst` when the
king itself moved (also for the castling encoding), else still `k`. -/
def leavesKingSafeFrom (p : Position) (k : Nat) (m : Move) : Bool :=
  let p2 := push p m
  let k2 := if m.src == k then m.dst else k
  !isAttacked p2 (!p.turn) k2

/-- python-chess `generate_legal_moves`: without a king everything
pseudo-legal counts; otherwise pseudo-legal moves filtered by king safety. -/
def legalMoves (p : Position) : List Move :=
  let pseudo := pseudoLegalMoves p
  match kingSquareOf p p.turn with
  | none => pseudo
  | some k => pseudo.filter (leavesKingSafeFrom p k)

/-! ## The heuristic Analysis Provider (`mock_stockfish_analysis`) -/

def pieceValue : PieceType → Int
  | .pawn => 1 | .knight => 3 | .bishop => 3 | .rook => 5 | .queen => 9 | .king => 0

/-- The four central squares e4, d4, e5, d5 as in the source
(`[chess.E4, chess.D4, chess.E5, chess.D5]`). -/
def centerSquares : List Nat := [28, 27, 36, 35]

/-- `mock_stockfish_analysis` from `src/backend/main.py` lines 102–147:
material sum (white-positive, negated when Black is to move), then first
capture, else first central-destination move, else first legal move. -/
def mock_stockfish_analysis (board : Position) : Option Move × Int :=
  let score0 := squaresAsc.foldl (fun acc sq =>
    match pieceAt board sq with
    | some pc => acc + (if pc.white then pieceValue pc.pt else -pieceValue pc.pt)
    | none => acc) 0
  let score := if board.turn then score0 else -score0
  let legal := legalMoves board
  if legal.isEmpty then (none, score)
  else
    let afterCapture := legal.find? (fun m => isCaptureMove board m)
    let afterCenter :=
      match afterCapture with
      | some m => some m
      | none => legal.find? (fun m => centerSquares.contains m.dst)
    let best :=
      match afterCenter with
      | some m => some m
      | none => legal.head?
    (best, score)

/-! ## FEN output (`Board.fen`, default options: en-passant square printed
only when a fully legal en-passant capture exists) -/

def pieceChar (pc : Piece) : Char :=
  let c : Char := match pc.pt with
    | .pawn => 'p' | .knight => 'n' | .bishop => 'b'
    | .rook => 'r' | .queen => 'q' | .king => 'k'
  if pc.white then c.toUpper else c

def rowFen (p : Position) (r : Nat) : List Char :=
  let step : (List Char × Nat) → Nat → (List Char × Nat) := fun st f =>
    match pieceAt p (r * 8 + f) with
    | some pc =>
      (st.1 ++ (if st.2 == 0 then [] else [Char.ofNat (48 + st.2)]) ++ [pieceChar pc], 0)
    | none => (st.1, st.2 + 1)
  let st := (List.range 8).foldl step ([], 0)
  st.1 ++ (if st.2 == 0 then [] else [Char.ofNat (48 + st.2)])

def boardFen (p : Position) : List Char :=
  List.intercalate ['/'] (((List.range 8).reverse).map (rowFen p))

def squareName (sq : Nat) : List Char :=
  [Char.ofNat (97 + fileOf sq), Char.ofNat (49 + rankOf sq)]

def castlingXfen (p : Position) : List Char :=
  let clean := cleanCastlingRights p
  let s := (if clean.contains 7 then ['K'] else []) ++
           (if clean.contains 0 then ['Q'] else []) ++
           (if clean.contains 63 then ['k'] else []) ++
           (if clean.contains 56 then ['q'] else [])
  if s.isEmpty then ['-'] else s

/-- python-chess `has_legal_en_passant`. -/
def hasLegalEp (p : Position) : Bool :=
  p.epSquare.isSome && (epPseudoMoves p).any (leavesKingSafe p)

/-- python-chess `Board.fen()` with its default options. -/
def fenOf (p : Position) : String :=
  let ep : List Char := match p.epSquare with
    | some sq => if hasLegalEp p then squareName sq else ['-']
    | none => ['-']
  String.mk (boardFen p) ++ " " ++ (if p.turn then "w" else "b") ++ " " ++
  String.mk (castlingXfen p) ++ " " ++ String.mk ep ++ " " ++
  Nat.repr p.halfmove ++ " " ++ Nat.repr p.fullmove

/-! ## FEN input (`chess.Board(fen)`, i.e. `Board.set_fen`) -/

def isPyWs (c : Char) : Bool :=
  c == ' ' || c == '\t' || c == '\n' || c == '\r' || c == '\x0b' || c == '\x0c'

def splitWsAux : List Char → List Char → List (List Char)
  | [], cur => if cur.isEmpty then [] else [cur.reverse]
  | c :: rest, cur =>
    if isPyWs c then
      if cur.isEmpty then splitWsAux rest [] else cur.reverse :: splitWsAux rest []
    else splitWsAux rest (c :: cur)

/-- Python `str.split()` with no separator: split on whitespace runs. -/
def pySplitWs (l : List Char) : List (List Char) := splitWsAux l []

def splitSlash : List Char → List Char → List (List Char)
  | [], cur => [cur.reverse]
  | c :: rest, cur =>
    if c == '/' then cur.reverse :: splitSlash rest [] else splitSlash rest (c :: cur)

def digitVal (c : Char) : Option Nat :=
  if '0' ≤ c ∧ c ≤ '9' then some (c.toNat - 48) else none

def parseNatDigits (l : List Char) : Option Nat :=
  match l with
  | [] => none
  | _ =>
    l.foldl (fun acc c =>
      match acc, digitVal c with
      | some n, some d => some (n * 10 + d)
      | _, _ => none) (some 0)

/-- Python `int(text)` restricted to the decimal forms FEN counters use. -/
def parsePyInt (l : List Char) : Option Int :=
  match l with
  | '-' :: rest => (parseNatDigits rest).map (fun n => -(n : Int))
  | '+' :: rest => (parseNatDigits rest).map (fun n => (n : Int))
  | _ => (parseNatDigits l).map (fun n => (n : Int))

def pieceOfChar (c : Char) : Option Piece :=
  let w := c.isUpper
  let low := c.toLower
  let pt : Option PieceType :=
    if low == 'p' then some .pawn
    else if low == 'n' then some .knight
    else if low == 'b' then some .bishop
    else if low == 'r' then some .rook
    else if low == 'q' then some .queen
    else if low == 'k' then some .king
    else none
  pt.map (fun t => ⟨t, w⟩)

structure RowState where
  file : Nat
  prevDigit : Bool
  prevPiece : Bool
  ok : Bool
  squares : List (Nat × Piece)

/-- One rank of the board part of a FEN (`_set_board_fen` row validation:
digits 1–8, no two adjacent digits, `~` only after a piece, field sum 8). -/
def parseRow (r : Nat) (row : List Char) : Option (List (Nat × Piece)) :=
  let st := row.foldl (fun (st : RowState) c =>
    if !st.ok then st
    else match digitVal c with
    | some d =>
      if decide (1 ≤ d) && decide (d ≤ 8) && !st.prevDigit then
        { st with file := st.file + d, prevDigit := true, prevPiece := false }
      else { st with ok := false }
    | none =>
      if c == '~' then
        if st.prevPiece then { st with prevPiece := false } else { st with ok := false }
      else match pieceOfChar c with
        | some pc =>
          { st with file := st.file + 1, prevDigit := false, prevPiece := true,
                    squares := (r * 8 + st.file, pc) :: st.squares }
        | none => { st with ok := false })
    ⟨0, false, false, true, []⟩
  if st.ok && st.file == 8 then some st.squares else none

def upCastleChar (c : Char) : Bool :=
  c == 'K' || c == 'Q' || (decide ('A' ≤ c) && decide (c ≤ 'H'))

def lowCastleChar (c : Char) : Bool :=
  c == 'k' || c == 'q' || (decide ('a' ≤ c) && decide (c ≤ 'h'))

/-- The `FEN_CASTLING_REGEX` shape: `-`, or up to two uppercase flags
followed by up to two lowercase flags. -/
def castlingPartOk (l : List Char) : Bool :=
  l == ['-'] ||
  (let ups := l.takeWhile upCastleChar
   let lows := l.drop ups.length
   decide (ups.length ≤ 2) && decide (lows.length ≤ 2) && lows.all lowCastleChar)

def pieceOn (board : BoardRep) (sq : Nat) : Option Piece := boardGet board sq

def rookSquaresOn (board : BoardRep) (w : Bool) (br : Nat) : List Nat :=
  (List.range 8).filterMap (fun f =>
    match pieceOn board (br + f) with
    | some pc => if pc.pt == .rook && pc.white == w then some (br + f) else none
    | none => none)

def kingMsbOn (board : BoardRep) (w : Bool) : Option Nat :=
  squaresDesc.find? (fun sq =>
    match pieceOn board sq with
    | some pc => pc.pt == .king && pc.white == w
    | none => false)

/-- python-chess `_set_castling_fen` flag handling (standard mode). -/
def castlingRightsFromPart (board : BoardRep) (l : List Char) : List Nat :=
  if l == ['-'] then []
  else
    l.foldl (fun acc c =>
      let w := c.isUpper
      let br := backrankBase w
      let rooks := rookSquaresOn board w br
      let king := kingMsbOn board w
      let granted : List Nat :=
        if c.toLower == 'q' then
          match king, rooks.head? with
          | some k, some lo => if lo < k then [lo] else [br]
          | some _, none => []       -- python: lsb of empty = -1 < king, grants nothing
          | none, _ => [br]
        else if c.toLower == 'k' then
          match king, rooks.getLast? with
          | some k, some hi => if k < hi then [hi] else [br + 7]
          | _, _ => [br + 7]
        else
          [br + (c.toLower.toNat - 97)]
      acc ++ granted) []

def squareFromName (l : List Char) : Option Nat :=
  match l with
  | [f, r] =>
    if decide ('a' ≤ f) && decide (f ≤ 'h') && decide ('1' ≤ r) && decide (r ≤ '8') then
      some ((r.toNat - 49) * 8 + (f.toNat - 97))
    else none
  | _ => none

/-- python-chess `Board.set_fen` (the constructor `chess.Board(fen)`):
whitespace-split parts with defaults for missing trailing parts, a
`ValueError` — modelled as `.error` with a descriptive message — otherwise. -/
def loadFen (s : String) : Except String Position :=
  match pySplitWs s.data with
  | [] => .error "empty fen"
  | boardPart :: rest =>
    if rest.length > 5 then .error "fen string has more parts than expected"
    else
    let rows := splitSlash boardPart []
    if rows.length != 8 then .error "expected 8 rows in position part of fen"
    else
    match (List.range 8).mapM (fun i => parseRow (7 - i) (rows.getD i [])) with
    | none => .error "invalid board part in fen"
    | some rowSquares =>
      let board := rowSquares.flatten.foldl
        (fun b sp => boardSet b (Prod.fst sp) (some (Prod.snd sp)))
        emptyBoard
      do
      let turn ← match rest.head? with
        | none => pure true
        | some t =>
          if t == ['w'] then pure true
          else if t == ['b'] then pure false
          else Except.error "expected w or b for turn part of fen"
      let castlePart ← match (rest.drop 1).head? with
        | none => pure ['-']
        | some cp =>
          if castlingPartOk cp then pure cp
          else Except.error "invalid castling part in fen"
      let ep ← match (rest.drop 2).head? with
        | none => pure none
        | some e =>
          if e == ['-'] then pure none
          else match squareFromName e with
            | some sq => pure (some sq)
            | none => Except.error "invalid en passant part in fen"
      let halfmove ← match (rest.drop 3).head? with
        | none => pure 0
        | some h =>
          match parsePyInt h with
          | none => Except.error "invalid half-move clock in fen"
          | some n =>
            if n < 0 then Except.error "half-move clock cannot be negative"
            else pure n.toNat
      let fullmove ← match (rest.drop 4).head? with
        | none => pure 1
        | some h =>
          match parsePyInt h with
          | none => Except.error "invalid fullmove number in fen"
          | some n =>
            if n < 0 then Except.error "fullmove number cannot be negative"
            else pure (max n.toNat 1)
      pure { board := board, turn := turn,
             castling := castlingRightsFromPart board castlePart,
             epSquare := ep, halfmove := halfmove, fullmove := fullmove }

/-! ## SAN parsing (`Board.parse_san`) -/

inductive SanErr where
  | invalidMove | illegalMove | ambiguousMove
deriving DecidableEq, Repr

structure SanGroups where
  pieceLetter : Option Char
  fromFile : Option Nat
  fromRank : Option Nat
  target : Nat
  promoChar : Option Char
deriving DecidableEq, Repr

def isFileChar (c : Char) : Bool := decide ('a' ≤ c) && decide (c ≤ 'h')
def isRankChar (c : Char) : Bool := decide ('1' ≤ c) && decide (c ≤ '8')
def isPieceUpper (c : Char) : Bool :=
  c == 'N' || c == 'B' || c == 'K' || c == 'R' || c == 'Q'
def isPromoLetter (c : Char) : Bool := "nbrqkNBRQK".data.contains c

/-- One backtracking alternative of `SAN_REGEX`
(`^([NBKRQ])?([a-h])?([1-8])?[\-x]?([a-h][1-8])(=?[nbrqkNBRQK])?[\+#]?$`).
The leading piece letter is forced when present: no later regex element can
consume an uppercase piece letter. -/
def sanTryCombo (l : List Char) (g2 g3 sep : Bool) (g5 : Nat) (suf : Bool) :
    Option SanGroups := do
  let (g1, l) := match l with
    | c :: rest => if isPieceUpper c then (some c, rest) else (none, c :: rest)
    | [] => (none, [])
  let (f2, l) ← if g2 then
      match l with
      | c :: rest => if isFileChar c then some (some (c.toNat - 97), rest) else none
      | [] => none
    else some (none, l)
  let (r3, l) ← if g3 then
      match l with
      | c :: rest => if isRankChar c then some (some (c.toNat - 49), rest) else none
      | [] => none
    else some (none, l)
  let l ← if sep then
      match l with
      | c :: rest => if c == '-' || c == 'x' then some rest else none
      | [] => none
    else some l
  let (tgt, l) ← match l with
    | a :: b :: rest =>
      if isFileChar a && isRankChar b then
        some ((b.toNat - 49) * 8 + (a.toNat - 97), rest)
      else none
    | _ => none
  let (p5, l) ← match g5 with
    | 0 =>
      match l with
      | '=' :: c :: rest => if isPromoLetter c then some (some c, rest) else none
      | _ => none
    | 1 =>
      match l with
      | c :: rest => if isPromoLetter c then some (some c, rest) else none
      | _ => none
    | _ => some (none, l)
  let l ← if suf then
      match l with
      | c :: rest => if c == '+' || c == '#' then some rest else none
      | [] => none
    else some l
  if l.isEmpty then some ⟨g1, f2, r3, tgt, p5⟩ else none

/-- Full `SAN_REGEX` match: alternatives tried in the backtracking preference
order of the regex engine (each optional element prefers to match; the
promotion group prefers `=X` over `X` over nothing). -/
def sanMatch (l : List Char) : Option SanGroups :=
  let combos : List (Bool × Bool × Bool × Nat × Bool) :=
    [true, false].flatMap (fun g2 =>
    [true, false].flatMap (fun g3 =>
    [true, false].flatMap (fun sep =>
    [0, 1, 2].flatMap (fun g5 =>
    [true, false].map (fun suf => (g2, g3, sep, g5, suf))))))
  combos.findSome? (fun c => sanTryCombo l c.1 c.2.1 c.2.2.1 c.2.2.2.1 c.2.2.2.2)

def pieceTypeOfUpper (c : Char) : PieceType :=
  if c == 'N' then .knight else if c == 'B' then .bishop
  else if c == 'R' then .rook else if c == 'Q' then .queen else .king

/-- python-chess `Board.find_move` (fully specified origin and destination):
default-queen a pawn reaching the backrank, convert the two standard
king-takes-rook castling encodings, then require full legality. -/
def find_move (p : Position) (src dst : Nat) (promo : Option PieceType) :
    Except SanErr Move :=
  let pawnAtSrc := match pieceAt p src with
    | some pc => pc.pt == .pawn
    | none => false
  let promo :=
    if promo.isNone && pawnAtSrc && (rankOf dst == 0 || rankOf dst == 7) then
      some PieceType.queen
    else promo
  let kingsAt : Nat → Bool := fun sq =>
    match pieceAt p sq with
    | some pc => pc.pt == .king
    | none => false
  let mv : Move :=
    if promo.isNone then
      if src == 4 && kingsAt 4 then
        if dst == 7 then ⟨4, 6, none⟩
        else if dst == 0 then ⟨4, 2, none⟩
        else ⟨src, dst, none⟩
      else if src == 60 && kingsAt 60 then
        if dst == 63 then ⟨60, 62, none⟩
        else if dst == 56 then ⟨60, 58, none⟩
        else ⟨src, dst, none⟩
      else ⟨src, dst, none⟩
    else ⟨src, dst, promo⟩
  if (legalMoves p).contains mv then .ok mv else .error .illegalMove

/-- The shared tail of `parse_san`: scan the legal moves restricted by the
origin predicate and the target square (the target mask excludes own-occupied
squares, so castling moves — whose mask candidate is the own rook square —
never take part here), require the promotion to agree, and classify
no-match/unique-match/multiple-match. -/
def sanFilterMatch (p : Position) (toSq : Nat) (promo : Option PieceType)
    (srcOk : Nat → Bool) : Except SanErr Move :=
  let cands := (legalMoves p).filter (fun m =>
    srcOk m.src && m.dst == toSq && !ownAt p toSq &&
    !isCastlingEncoding p m && m.promo == promo)
  match cands with
  | [] => .error .illegalMove
  | [m] => .ok m
  | _ => .error .ambiguousMove

def kingsideCastleSans : List String := ["O-O", "O-O+", "O-O#", "0-0", "0-0+", "0-0#"]
def queensideCastleSans : List String :=
  ["O-O-O", "O-O-O+", "O-O-O#", "0-0-0", "0-0-0+", "0-0-0#"]
def nullMoveSans : List String := ["--", "Z0", "0000", "@@@@"]

/-- python-chess `Board.parse_san`: castling strings, then the SAN regex
(failure ⇒ `InvalidMoveError` unless a null-move spelling), then matching
against legal moves (`IllegalMoveError` when none matches,
`AmbiguousMoveError` when several do). -/
def parse_san (p : Position) (san : String) : Except SanErr Move :=
  if kingsideCastleSans.contains san then
    match (castlingMoves p).find? (fun m => decide (fileOf m.src < fileOf m.dst)) with
    | some m => .ok m
    | none => .error .illegalMove
  else if queensideCastleSans.contains san then
    match (castlingMoves p).find? (fun m => decide (fileOf m.dst < fileOf m.src)) with
    | some m => .ok m
    | none => .error .illegalMove
  else
    match sanMatch san.data with
    | none =>
      if nullMoveSans.contains san then .ok nullMove else .error .invalidMove
    | some g =>
      let toSq := g.target
      let promo := g.promoChar.bind (fun c => (pieceOfChar c).map Piece.pt)
      match g.pieceLetter with
      | some pl =>
        let pt := pieceTypeOfUpper pl
        sanFilterMatch p toSq promo (fun sq =>
          (match pieceAt p sq with
           | some pc => pc.pt == pt && pc.white == p.turn
           | none => false) &&
          (match g.fromFile with | some f => fileOf sq == f | none => true) &&
          (match g.fromRank with | some r => rankOf sq == r | none => true))
      | none =>
        match g.fromFile, g.fromRank with
        | some f, some r =>
          match find_move p (r * 8 + f) toSq promo with
          | .error e => .error e
          | .ok mv => if mv.promo == promo then .ok mv else .error .illegalMove
        | _, _ =>
          sanFilterMatch p toSq promo (fun sq =>
            isPawnOfTurnAt p sq &&
            (match g.fromFile with
             | some f => fileOf sq == f
             | none => fileOf sq == fileOf toSq) &&
            (match g.fromRank with | some r => rankOf sq == r | none => true))

/-- `str(move)` in Python: the UCI encoding. -/
def uciString (m : Move) : String :=
  if m == nullMove then "0000"
  else
    String.mk (squareName m.src ++ squareName m.dst ++
      (match m.promo with
       | some pt =>
         [(match pt with
           | .knight => 'n' | .bishop => 'b' | .rook => 'r'
           | .queen => 'q' | .king => 'k' | .pawn => 'p')]
       | none => []))

/-! ## String helpers with Python semantics -/

/-- Python `str.strip()` (ASCII whitespace, which is all the pipeline
encounters). -/
def pyStrip (l : List Char) : List Char :=
  ((l.dropWhile isPyWs).reverse.dropWhile isPyWs).reverse

/-- Python `pat in text` for strings: substring containment. -/
def containsSub (pat : List Char) : List Char → Bool
  | [] => pat.isEmpty
  | c :: rest => pat.isPrefixOf (c :: rest) || containsSub pat rest

/-! ## JSON values and Python `json.loads` -/

inductive Json where
  | null
  | bool (b : Bool)
  | num (lexeme : String)      -- numeric literal as written (incl. NaN, Infinity)
  | str (s : String)
  | arr (items : List Json)
  | obj (fields : List (String × Json))

/-- Python exceptions that can occur in the modelled fragment. -/
inductive PyExn where
  | typeError
  | attrError
  | keyError
  | valueError (msg : String)
  | jsonError
  | ambiguousMove
deriving DecidableEq, Repr

def objMem : List (String × Json) → String → Bool
  | [], _ => false
  | kv :: rest, k => kv.1 == k || objMem rest k

/-- Lookup in an object; parsed objects carry unique keys (duplicates are
collapsed at parse time exactly as Python dicts collapse them). -/
def objGet : List (String × Json) → String → Option Json
  | [], _ => none
  | kv :: rest, k => if kv.1 == k then some kv.2 else objGet rest k

/-- Python dict insertion: an existing key keeps its position and takes the
new value; a new key is appended. -/
def objInsert (fields : List (String × Json)) (k : String) (v : Json) :
    List (String × Json) :=
  if objMem fields k then
    fields.map (fun kv => if kv.1 == k then (k, v) else kv)
  else fields ++ [(k, v)]

def jsonWsChar (c : Char) : Bool := c == ' ' || c == '\t' || c == '\n' || c == '\r'

def jsonWs (l : List Char) : List Char := l.dropWhile jsonWsChar

def hexVal (c : Char) : Option Nat :=
  if '0' ≤ c ∧ c ≤ '9' then some (c.toNat - 48)
  else if 'a' ≤ c ∧ c ≤ 'f' then some (c.toNat - 87)
  else if 'A' ≤ c ∧ c ≤ 'F' then some (c.toNat - 55)
  else none

/-- JSON string body after the opening quote; strict mode (control characters
rejected), standard escapes, `\uXXXX` with surrogate-pair combination. -/
def parseJsonStr : Nat → List Char → Option (List Char × List Char)
  | 0, _ => none
  | _ + 1, [] => none
  | fuel + 1, c :: rest =>
    if c == '"' then some ([], rest)
    else if c == '\\' then
      match rest with
      | [] => none
      | e :: rest2 =>
        let simple : Option Char :=
          if e == '"' then some '"'
          else if e == '\\' then some '\\'
          else if e == '/' then some '/'
          else if e == 'b' then some (Char.ofNat 8)
          else if e == 'f' then some (Char.ofNat 12)
          else if e == 'n' then some '\n'
          else if e == 'r' then some '\r'
          else if e == 't' then some '\t'
          else none
        match simple with
        | some ch => (parseJsonStr fuel rest2).map (fun pr => (ch :: pr.1, pr.2))
        | none =>
          if e == 'u' then
            match rest2 with
            | h1 :: h2 :: h3 :: h4 :: rest3 =>
              match hexVal h1, hexVal h2, hexVal h3, hexVal h4 with
              | some a, some b, some c2, some d =>
                let n := ((a * 16 + b) * 16 + c2) * 16 + d
                if 0xD800 ≤ n ∧ n ≤ 0xDBFF then
                  match rest3 with
                  | '\\' :: 'u' :: j1 :: j2 :: j3 :: j4 :: rest4 =>
                    match hexVal j1, hexVal j2, hexVal j3, hexVal j4 with
                    | some a2, some b2, some c3, some d2 =>
                      let m := ((a2 * 16 + b2) * 16 + c3) * 16 + d2
                      if 0xDC00 ≤ m ∧ m ≤ 0xDFFF then
                        let code := 0x10000 + (n - 0xD800) * 0x400 + (m - 0xDC00)
                        (parseJsonStr fuel rest4).map
                          (fun pr => (Char.ofNat code :: pr.1, pr.2))
                      else
                        (parseJsonStr fuel rest3).map
                          (fun pr => (Char.ofNat n :: pr.1, pr.2))
                    | _, _, _, _ =>
                      (parseJsonStr fuel rest3).map
                        (fun pr => (Char.ofNat n :: pr.1, pr.2))
                  | _ =>
                    (parseJsonStr fuel rest3).map
                      (fun pr => (Char.ofNat n :: pr.1, pr.2))
                else
                  (parseJsonStr fuel rest3).map (fun pr => (Char.ofNat n :: pr.1, pr.2))
              | _, _, _, _ => none
            | _ => none
          else none
    else if decide (c.toNat < 32) then none
    else (parseJsonStr fuel rest).map (fun pr => (c :: pr.1, pr.2))

/-- Maximal-munch JSON number lexeme (`NUMBER_RE`): `-?(0|[1-9]\d*)` with an
optional `.digits` fraction and an optional exponent. -/
def lexJsonNumber (l : List Char) : Option (List Char × List Char) :=
  let digits := fun (x : List Char) => x.takeWhile (fun c => (digitVal c).isSome)
  let int : Option (List Char × List Char) :=
    match l with
    | '0' :: rest => some (['0'], rest)
    | c :: _ =>
      match digitVal c with
      | some d =>
        if decide (1 ≤ d) then
          let ds := digits l
          some (ds, l.drop ds.length)
        else none
      | none => none
    | [] => none
  match int with
  | none => none
  | some (ip, rest1) =>
    let (fp, rest2) :=
      match rest1 with
      | '.' :: more =>
        let ds := digits more
        if ds.isEmpty then ([], rest1) else ('.' :: ds, more.drop ds.length)
      | _ => ([], rest1)
    let (ep, rest3) :=
      match rest2 with
      | e :: more =>
        if e == 'e' || e == 'E' then
          let (sgn, more2) :=
            match more with
            | s :: m2 => if s == '+' || s == '-' then ([s], m2) else ([], more)
            | [] => ([], more)
          let ds := digits more2
          if ds.isEmpty then ([], rest2) else (e :: (sgn ++ ds), more2.drop ds.length)
        else ([], rest2)
      | [] => ([], rest2)
    some (ip ++ fp ++ ep, rest3)

mutual

/-- One JSON value (Python `json.loads` grammar, including the non-standard
`NaN`/`Infinity`/`-Infinity` constants the stdlib accepts). -/
def parseJsonValue : Nat → List Char → Option (Json × List Char)
  | 0, _ => none
  | fuel + 1, l =>
    match jsonWs l with
    | [] => none
    | c :: rest =>
      if c == '{' then
        parseJsonMembers fuel (jsonWs rest) []
      else if c == '[' then
        parseJsonItems fuel (jsonWs rest) []
      else if c == '"' then
        (parseJsonStr (rest.length + 1) rest).map (fun pr => (Json.str (String.mk pr.1), pr.2))
      else if "true".data.isPrefixOf (c :: rest) then
        some (Json.bool true, (c :: rest).drop 4)
      else if "false".data.isPrefixOf (c :: rest) then
        some (Json.bool false, (c :: rest).drop 5)
      else if "null".data.isPrefixOf (c :: rest) then
        some (Json.null, (c :: rest).drop 4)
      else if "NaN".data.isPrefixOf (c :: rest) then
        some (Json.num "NaN", (c :: rest).drop 3)
      else if "Infinity".data.isPrefixOf (c :: rest) then
        some (Json.num "Infinity", (c :: rest).drop 8)
      else if "-Infinity".data.isPrefixOf (c :: rest) then
        some (Json.num "-Infinity", (c :: rest).drop 9)
      else if c == '-' then
        (lexJsonNumber rest).map (fun pr => (Json.num (String.mk ('-' :: pr.1)), pr.2))
      else
        (lexJsonNumber (c :: rest)).map (fun pr => (Json.num (String.mk pr.1), pr.2))

/-- Array items after `[` (leading whitespace already skipped). -/
def parseJsonItems : Nat → List Char → List Json → Option (Json × List Char)
  | 0, _, _ => none
  | _ + 1, [], _ => none
  | fuel + 1, c :: rest, acc =>
    if c == ']' && acc.isEmpty then some (Json.arr [], rest)
    else
      match parseJsonValue fuel (c :: rest) with
      | none => none
      | some (v, rest2) =>
        match jsonWs rest2 with
        | ',' :: rest3 => parseJsonItems fuel (jsonWs rest3) (acc ++ [v])
        | ']' :: rest3 => some (Json.arr (acc ++ [v]), rest3)
        | _ => none

/-- Object members after `{` (leading whitespace already skipped). -/
def parseJsonMembers : Nat → List Char → List (String × Json) →
    Option (Json × List Char)
  | 0, _, _ => none
  | _ + 1, [], _ => none
  | fuel + 1, c :: rest, acc =>
    if c == '}' && acc.isEmpty then some (Json.obj [], rest)
    else if c == '"' then
      match parseJsonStr (rest.length + 1) rest with
      | none => none
      | some (key, rest2) =>
        match jsonWs rest2 with
        | ':' :: rest3 =>
          match parseJsonValue fuel rest3 with
          | none => none
          | some (v, rest4) =>
            let acc2 := objInsert acc (String.mk key) v
            match jsonWs rest4 with
            | ',' :: rest5 => parseJsonMembers fuel (jsonWs rest5) acc2
            | '}' :: rest5 => some (Json.obj acc2, rest5)
            | _ => none
        | _ => none
    else none

end

/-- Python `json.loads`: parse one value, then require only whitespace to
remain (`Extra data` otherwise); `none` models `json.JSONDecodeError`. -/
def json_loads (s : String) : Option Json :=
  match parseJsonValue (s.data.length + 2) s.data with
  | some (v, rest) => if (jsonWs rest).isEmpty then some v else none
  | none => none

/-! ## Python operational semantics used by the payload handling -/

/-- Python `in` (membership) with a string key, per receiver type. -/
def pyContains (v : Json) (k : String) : Except PyExn Bool :=
  match v with
  | .obj fields => .ok (objMem fields k)
  | .arr items =>
    .ok (items.any (fun j => match j with | .str s => s == k | _ => false))
  | .str s => .ok (containsSub k.data s.data)
  | _ => .error .typeError

/-- Python truthiness of a JSON-decoded value. -/
def numIsZero (lex : String) : Bool :=
  let mantissa := lex.data.takeWhile (fun c => c != 'e' && c != 'E')
  mantissa.any (fun c => (digitVal c).isSome) &&
  mantissa.all (fun c => match digitVal c with | some d => d == 0 | none => true)

def pyTruthy (v : Json) : Bool :=
  match v with
  | .null => false
  | .bool b => b
  | .num lex => !numIsZero lex
  | .str s => !s.isEmpty
  | .arr items => !items.isEmpty
  | .obj fields => !fields.isEmpty

/-- Python `v[k]` with a string key. -/
def pyGetItem (v : Json) (k : String) : Except PyExn Json :=
  match v with
  | .obj fields =>
    match objGet fields k with
    | some j => .ok j
    | none => .error .keyError
  | _ => .error .typeError

/-- Python `v[k] = x` with a string key. -/
def pySetItem (v : Json) (k : String) (x : Json) : Except PyExn Json :=
  match v with
  | .obj fields => .ok (.obj (objInsert fields k x))
  | _ => .error .typeError

/-- Python `v.get(k, default)` — only dicts have `.get`. -/
def pyDictGet (v : Json) (k : String) (dflt : Json) : Except PyExn Json :=
  match v with
  | .obj fields => .ok ((objGet fields k).getD dflt)
  | _ => .error .attrError

def dedupFirst (l : List String) : List String :=
  l.foldl (fun acc k => if acc.contains k then acc else acc ++ [k]) []

/-- Python iteration (`for x in v`): lists yield items, dicts yield keys,
strings yield one-character strings, everything else raises `TypeError`. -/
def pyIter (v : Json) : Except PyExn (List Json) :=
  match v with
  | .arr items => .ok items
  | .obj fields => .ok ((dedupFirst (fields.map Prod.fst)).map Json.str)
  | .str s => .ok (s.data.map (fun c => Json.str (String.mk [c])))
  | _ => .error .typeError

/-! ## `calculate_fens_for_sequence` (src/backend/main.py lines 68–100) -/

/-- The loop body of `calculate_fens_for_sequence`: apply each SAN to the
running board; `InvalidMoveError` and `IllegalMoveError` are caught and the
entry skipped without advancing the board; python-chess's third SAN failure,
`AmbiguousMoveError`, is *not* in the `except` tuple and escapes; a non-str
entry raises `TypeError` inside `parse_san`. -/
def calcFensGo (p : Position) : List Json → Except PyExn (List (String × String))
  | [] => .ok []
  | j :: rest =>
    match j with
    | .str san =>
      match parse_san p san with
      | .ok mv =>
        let p2 := push p mv
        (calcFensGo p2 rest).map (fun tail => (san, fenOf p2) :: tail)
      | .error .invalidMove => calcFensGo p rest
      | .error .illegalMove => calcFensGo p rest
      | .error .ambiguousMove => .error .ambiguousMove
    | _ => .error .typeError

/-- `calculate_fens_for_sequence(moves, starting_fen)`: reload the starting
FEN (a `ValueError` if it does not parse), then walk the moves; the returned
entries pair each retained SAN with the FEN after applying it. -/
def calculate_fens_for_sequence (moves : Json) (starting_fen : String) :
    Except PyExn (List (String × String)) :=
  match loadFen starting_fen with
  | .error msg => .error (.valueError msg)
  | .ok board =>
    match pyIter moves with
    | .error e => .error e
    | .ok items => calcFensGo board items

/-- Convenience wrapper for a plain list of SAN strings (the declared
`moves: List[str]` signature). -/
def calcFens (moves : List String) (starting_fen : String) :
    Except PyExn (List (String × String)) :=
  calculate_fens_for_sequence (Json.arr (moves.map Json.str)) starting_fen

/-! ## Response-text cleaning (lines 385–392) -/

def fenceChar : Char := Char.ofNat 96
def fenceTok : List Char := [fenceChar, fenceChar, fenceChar]

/-- Python `text.split(sep)` specialised to the three-backtick fence token;
structural recursion on a character budget (every step consumes at least one
character, so a budget of `l.length` never runs out). -/
def fenceSplitF : Nat → List Char → List (List Char)
  | _, [] => [[]]
  | 0, l => [l]
  | fuel + 1, c :: rest =>
    if fenceTok.isPrefixOf (c :: rest) then
      [] :: fenceSplitF fuel (rest.drop 2)
    else
      match fenceSplitF fuel rest with
      | [] => [[c]]
      | h :: t => (c :: h) :: t

def fenceSplit (l : List Char) : List (List Char) := fenceSplitF l.length l

def dropJsonHint (l : List Char) : List Char :=
  if "json".data.isPrefixOf l then l.drop 4 else l

/-- Lines 385–392 of `ask_coach`: strip the raw text; when it then starts
with the fence token, take element 1 of the fence split (the first fenced
segment's interior), drop a leading `json` hint, and strip again. -/
def cleanResponseText (raw : String) : String :=
  let t := pyStrip raw.data
  if fenceTok.isPrefixOf t then
    String.mk (pyStrip (dropJsonHint ((fenceSplit t).getD 1 [])))
  else String.mk t

/-! ## Payload processing (lines 394–418) -/

/-- `str(e)` for the modelled exceptions.  No claim inspects exception
message text, so messages are modelled compactly. -/
def exnMessage : PyExn → String
  | .typeError => "TypeError"
  | .attrError => "AttributeError"
  | .keyError => "KeyError"
  | .valueError msg => msg
  | .jsonError => "Expecting value"
  | .ambiguousMove => "ambiguous san"

/-- One iteration of the sequences loop (lines 399–407): `seq.get('moves')`,
`calculate_fens_for_sequence`, then the dict literal with
`seq.get('label', 'Move sequence')`. -/
def processSeq (fen : String) (seq : Json) : Except PyExn Json :=
  match pyDictGet seq "moves" (Json.arr []) with
  | .error e => .error e
  | .ok movesVal =>
    match calculate_fens_for_sequence movesVal fen with
    | .error e => .error e
    | .ok mwf =>
      match pyDictGet seq "label" (Json.str "Move sequence") with
      | .error e => .error e
      | .ok label =>
        .ok (Json.obj [("label", label),
                       ("moves", Json.arr (mwf.map (fun sf =>
                         Json.obj [("san", Json.str sf.1), ("fen", Json.str sf.2)])))])

/-- Lines 397–407: the `if 'sequences' in action_script and
action_script['sequences']:` guard and the loop over its items. -/
def processSequences (fen : String) (action_script : Json) (hasSeq : Bool) :
    Except PyExn (List Json) :=
  if hasSeq then
    match pyGetItem action_script "sequences" with
    | .error e => .error e
    | .ok seqVal =>
      if pyTruthy seqVal then
        match pyIter seqVal with
        | .error e => .error e
        | .ok seqs => seqs.mapM (processSeq fen)
      else .ok []
  else .ok []

/-- Lines 409–418: default the `explanation` when absent, then build the
returned dict. -/
def assembleResponse (action_script : Json) (processed : List Json) :
    Except PyExn Json :=
  match pyContains action_script "explanation" with
  | .error e => .error e
  | .ok hasExp =>
    match (if hasExp then .ok action_script
           else pySetItem action_script "explanation" (Json.str "Analysis complete.")) with
    | .error e => .error e
    | .ok script2 =>
      match pyGetItem script2 "explanation" with
      | .error e => .error e
      | .ok expl =>
        match pyDictGet script2 "actions" (Json.arr []) with
        | .error e => .error e
        | .ok actions =>
          .ok (Json.obj [("explanation", expl), ("sequences", Json.arr processed),
                         ("actions", actions)])

/-- Lines 394–418 of `ask_coach`: `json.loads` the cleaned text, expand any
truthy `sequences` through `calculate_fens_for_sequence`, default the
`explanation`, and assemble the response dict; every Python exception raised
along the way escapes to the handler. -/
def processPayload (fen : String) (raw : String) : Except PyExn Json :=
  match json_loads (cleanResponseText raw) with
  | none => .error .jsonError
  | some action_script =>
    match pyContains action_script "sequences" with
    | .error e => .error e
    | .ok hasSeq =>
      match processSequences fen action_script hasSeq with
      | .error e => .error e
      | .ok processed => assembleResponse action_script processed

/-! ## The orchestrator: live mode of `ask_coach` (lines 230–435) -/

structure EngineInfo where
  bestMove : Move
  score : Int
deriving DecidableEq, Repr

/-- Outcomes of the two external calls: the engine analysis (line 239–244,
any exception taken by the inner `except`) and the delegation to the
generation collaborator (lines 252–385, prompt assembly plus
`generate_content`; a failure there carries `str(e)`). -/
structure Env where
  engineResult : Except String EngineInfo
  genResult : Except String String

/-- The Python local `best_move`: `None` before analysis, a `chess.Move`
from the engine or the heuristic, or the literal string `"e2e4"`. -/
inductive BestMoveVal where
  | noneVal
  | move (m : Move)
  | lit (s : String)
deriving DecidableEq, Repr

/-- Python `str(best_move)`. -/
def bestMoveStr : BestMoveVal → String
  | .noneVal => "None"
  | .move m => uciString m
  | .lit s => s

/-- The analysis stage (lines 236–250): the engine's move when the engine
call succeeded, else the heuristic evaluator's move, else the literal
`"e2e4"`. -/
def analysisBestMove (board : Position) (env : Env) : BestMoveVal :=
  match env.engineResult with
  | .ok info => .move info.bestMove
  | .error _ =>
    match (mock_stockfish_analysis board).1 with
    | some m => .move m
    | none => .lit "e2e4"

/-- `best_move` is assigned `None` at line 232, before the `try`, so
`'best_move' in locals()` is `True` on every path through the handler. -/
def bestMoveInLocals : Bool := true

/-- The `except`-handler response (lines 419–431): explanation
`"Error: {str(e)}"`, empty sequences, and one `move` action whose `lan` is
`str(best_move)` (the handler's `"e2e4"` alternative is kept as written). -/
def fallbackJson (msg : String) (bm : BestMoveVal) : Json :=
  Json.obj [("explanation", Json.str ("Error: " ++ msg)),
            ("sequences", Json.arr []),
            ("actions", Json.arr [Json.obj [
               ("type", Json.str "move"),
               ("lan", Json.str (if bestMoveInLocals then bestMoveStr bm else "e2e4")),
               ("comment", Json.str "Unable to generate full analysis. Try again.")]])]

/-- The live-mode branch of `ask_coach` as a function of the request's FEN
and the outcomes of the external calls.  `.ok` is the HTTP-success JSON
body; `.error` would be an exception escaping the handler (an HTTP failure)
and is structurally never produced, because the whole body sits in a `try`
whose `except Exception` returns the fallback response. -/
def ask_coach_live (fen : String) (env : Env) : Except String Json :=
  match loadFen fen with
  | .error msg => .ok (fallbackJson msg BestMoveVal.noneVal)
  | .ok board =>
    let bm := analysisBestMove board env
    match env.genResult with
    | .error msg => .ok (fallbackJson msg bm)
    | .ok raw =>
      match processPayload fen raw with
      | .error e => .ok (fallbackJson (exnMessage e) bm)
      | .ok out => .ok out

/-! ## Shared helpers for the claim theorems -/

def standardFen : String := "rnbqkbnr/pppppppp/8/8/8/8/PPPPPPPP/RNBQKBNR w KQkq - 0 1"

def posOfFen (s : String) : Position :=
  match loadFen s with
  | .ok p => p
  | .error _ => ⟨[], true, [], none, 0, 0⟩

def standardPos : Position := posOfFen standardFen

def exceptIsOk {ε α : Type} : Except ε α → Bool
  | .ok _ => true
  | .error _ => false

def jField (j : Json) (k : String) : Option Json :=
  match j with
  | .obj fields => objGet fields k
  | _ => none

/-- A response body is a complete ActionScript when it is an object carrying
all three keys. -/
def isCompleteScript (j : Json) : Bool :=
  match j with
  | .obj fields =>
    objMem fields "explanation" && objMem fields "sequences" && objMem fields "actions"
  | _ => false

theorem except_bind_ok {ε α β : Type} {x : Except ε α} {f : α → Except ε β} {b : β}
    (h : x >>= f = .ok b) : ∃ a, x = .ok a ∧ f a = .ok b := by
  cases x with
  | ok a => exact ⟨a, rfl, h⟩
  | error e => simp [Bind.bind, Except.bind] at h

theorem objMem_false_objGet {fields : List (String × Json)} {k : String}
    (h : objMem fields k = false) : objGet fields k = none := by
  induction fields with
  | nil => rfl
  | cons kv rest ih =>
    simp only [objMem, Bool.or_eq_false_iff] at h
    simp only [objGet, if_neg (show ¬ (kv.1 == k) = true by simp [h.1])]
    exact ih h.2

theorem objMem_true_objGet {fields : List (String × Json)} {k : String}
    (h : objMem fields k = true) : ∃ v, objGet fields k = some v := by
  induction fields with
  | nil => simp [objMem] at h
  | cons kv rest ih =>
    simp only [objMem, Bool.or_eq_true] at h
    by_cases hq : (kv.1 == k) = true
    · exact ⟨kv.2, by simp only [objGet, if_pos hq]⟩
    · obtain ⟨w, hw⟩ := ih (by
        rcases h with h | h
        · exact absurd h hq
        · exact h)
      exact ⟨w, by simp only [objGet, if_neg hq]; exact hw⟩

theorem objGet_map_replace {k k2 : String} {v : Json} (h : (k2 == k) = false) :
    ∀ fields : List (String × Json),
      objGet (fields.map (fun kv => if kv.1 == k2 then (k2, v) else kv)) k =
        objGet fields k := by
  intro fields
  induction fields with
  | nil => rfl
  | cons kv rest ih =>
    simp only [List.map_cons]
    by_cases hk : (kv.1 == k2) = true
    · rw [show (if kv.1 == k2 then (k2, v) else kv) = (k2, v) from by rw [if_pos hk]]
      have hkv : (kv.1 == k) = false := by
        have h1 : kv.1 = k2 := by simpa using hk
        rw [h1]; exact h
      simp only [objGet, if_neg (show ¬ ((k2, v).1 == k) = true by simp_all),
        if_neg (show ¬ (kv.1 == k) = true by simp [hkv])]
      exact ih
    · rw [show (if kv.1 == k2 then (k2, v) else kv) = kv from by rw [if_neg hk]]
      by_cases hq : (kv.1 == k) = true
      · simp only [objGet, if_pos hq]
      · simp only [objGet, if_neg hq]
        exact ih

theorem objGet_append_single {k k2 : String} {v : Json} (h : (k2 == k) = false) :
    ∀ fields : List (String × Json),
      objGet (fields ++ [(k2, v)]) k = objGet fields k := by
  intro fields
  induction fields with
  | nil => simp only [List.nil_append, objGet, if_neg (show ¬ (k2 == k) = true by simp [h])]
  | cons kv rest ih =>
    simp only [List.cons_append, objGet]
    by_cases hq : (kv.1 == k) = true
    · rw [if_pos hq, if_pos hq]
    · rw [if_neg hq, if_neg hq]
      exact ih

theorem objGet_objInsert_ne {fields : List (String × Json)} {k k2 : String} {v : Json}
    (h : (k2 == k) = false) :
    objGet (objInsert fields k2 v) k = objGet fields k := by
  unfold objInsert
  by_cases hm : objMem fields k2
  · rw [if_pos hm]
    exact objGet_map_replace h fields
  · rw [if_neg hm]
    exact objGet_append_single h fields

theorem objGet_objInsert_absent {fields : List (String × Json)} {k : String} {v : Json}
    (hm : objMem fields k = false) :
    objGet (objInsert fields k v) k = some v := by
  unfold objInsert
  rw [if_neg (by simp [hm])]
  induction fields with
  | nil => simp [objGet]
  | cons kv rest ih =>
    simp only [objMem, Bool.or_eq_false_iff] at hm
    simp only [List.cons_append, objGet, if_neg (show ¬ (kv.1 == k) = true by simp [hm.1])]
    exact ih hm.2

/-- What `assembleResponse` returns on success: always an object with
exactly the three ActionScript keys. -/
theorem assembleResponse_shape {v : Json} {processed : List Json} {j : Json}
    (h : assembleResponse v processed = .ok j) :
    ∃ e a, j = Json.obj [("explanation", e), ("sequences", Json.arr processed),
                         ("actions", a)] := by
  unfold assembleResponse at h
  split at h
  · exact absurd h (by simp)
  · split at h
    · exact absurd h (by simp)
    · split at h
      · exact absurd h (by simp)
      · split at h
        · exact absurd h (by simp)
        · exact ⟨_, _, (Except.ok.inj h).symm⟩

/-- What `processPayload` returns on success: always an object with exactly
the three ActionScript keys. -/
theorem processPayload_shape {fen raw : String} {j : Json}
    (h : processPayload fen raw = .ok j) :
    ∃ e s a, j = Json.obj [("explanation", e), ("sequences", s), ("actions", a)] := by
  unfold processPayload at h
  split at h
  · exact absurd h (by simp)
  · split at h
    · exact absurd h (by simp)
    · split at h
      · exact absurd h (by simp)
      · obtain ⟨e, a, rfl⟩ := assembleResponse_shape h
        exact ⟨_, _, _, rfl⟩

/-- `assembleResponse` on an object: it succeeds, the explanation is the
payload's own (defaulted when absent), and the `actions` value is passed
through with no validation of any kind. -/
theorem assembleResponse_obj (fields : List (String × Json)) (processed : List Json) :
    assembleResponse (Json.obj fields) processed =
      .ok (Json.obj
        [("explanation", (objGet fields "explanation").getD (Json.str "Analysis complete.")),
         ("sequences", Json.arr processed),
         ("actions", (objGet fields "actions").getD (Json.arr []))]) := by
  cases hge : objGet fields "explanation" with
  | some e =>
    have he : objMem fields "explanation" = true := by
      by_contra hx
      rw [objMem_false_objGet (show objMem fields "explanation" = false by simpa using hx)]
        at hge
      cases hge
    simp [assembleResponse, pyContains, he, pyGetItem, pyDictGet, hge]
  | none =>
    have he : objMem fields "explanation" = false := by
      by_contra hx
      obtain ⟨w, hw⟩ := objMem_true_objGet
        (show objMem fields "explanation" = true by simpa using hx)
      rw [hw] at hge
      cases hge
    simp [assembleResponse, pyContains, he, pyGetItem, pySetItem, pyDictGet, hge,
      objGet_objInsert_absent he,
      objGet_objInsert_ne (show (("explanation" : String) == "actions") = false by decide)]

/-- The `actions` field of a successful `processPayload` result on an object
payload is the payload's own `actions` value, defaulted to `[]`. -/
theorem processPayload_actions {fen raw : String} {fields : List (String × Json)}
    {out : Json}
    (hj : json_loads (cleanResponseText raw) = some (Json.obj fields))
    (hp : processPayload fen raw = .ok out) :
    jField out "actions" = some ((objGet fields "actions").getD (Json.arr [])) := by
  simp only [processPayload, hj, pyContains] at hp
  split at hp
  · exact absurd hp (by simp)
  · rw [assembleResponse_obj] at hp
    rw [← Except.ok.inj hp]
    rfl

/-- When the payload declares no `sequences` key, the success path is always
taken, with explanation and actions defaulted. -/
theorem processPayload_noseq {fen raw : String} {fields : List (String × Json)}
    (hj : json_loads (cleanResponseText raw) = some (Json.obj fields))
    (hs : objMem fields "sequences" = false) :
    processPayload fen raw =
      .ok (Json.obj
        [("explanation", (objGet fields "explanation").getD (Json.str "Analysis complete.")),
         ("sequences", Json.arr []),
         ("actions", (objGet fields "actions").getD (Json.arr []))]) := by
  simp only [processPayload, hj, pyContains, hs, processSequences, Bool.false_eq_true,
    if_false]
  exact assembleResponse_obj fields []

/-- When the payload's `sequences` value is present but an empty list, the
truthiness half of the `if 'sequences' in action_script and
action_script['sequences']:` guard skips the loop, so the success path is
again taken with explanation and actions defaulted. -/
theorem processPayload_emptyseq {fen raw : String} {fields : List (String × Json)}
    (hj : json_loads (cleanResponseText raw) = some (Json.obj fields))
    (hs : objGet fields "sequences" = some (Json.arr [])) :
    processPayload fen raw =
      .ok (Json.obj
        [("explanation", (objGet fields "explanation").getD (Json.str "Analysis complete.")),
         ("sequences", Json.arr []),
         ("actions", (objGet fields "actions").getD (Json.arr []))]) := by
  have hmem : objMem fields "sequences" = true := by
    by_contra hx
    rw [objMem_false_objGet (show objMem fields "sequences" = false by simpa using hx)] at hs
    cases hs
  simp only [processPayload, hj, pyContains, hmem, processSequences, if_true, pyGetItem,
    hs, pyTruthy, List.isEmpty_nil, Bool.not_true, Bool.false_eq_true, if_false]
  exact assembleResponse_obj fields []

/-! Evaluation lemmas for the four paths through the orchestrator. -/

theorem ask_live_load_error {fen : String} {env : Env} {msg : String}
    (h : loadFen fen = .error msg) :
    ask_coach_live fen env = .ok (fallbackJson msg BestMoveVal.noneVal) := by
  simp only [ask_coach_live, h]

theorem ask_live_gen_error {fen : String} {env : Env} {board : Position} {msg : String}
    (hb : loadFen fen = .ok board) (hg : env.genResult = .error msg) :
    ask_coach_live fen env = .ok (fallbackJson msg (analysisBestMove board env)) := by
  simp only [ask_coach_live, hb, hg]

theorem ask_live_payload_error {fen raw : String} {env : Env} {board : Position}
    {e : PyExn} (hb : loadFen fen = .ok board) (hg : env.genResult = .ok raw)
    (hp : processPayload fen raw = .error e) :
    ask_coach_live fen env =
      .ok (fallbackJson (exnMessage e) (analysisBestMove board env)) := by
  simp only [ask_coach_live, hb, hg, hp]

theorem ask_live_payload_ok {fen raw : String} {env : Env} {board : Position}
    {out : Json} (hb : loadFen fen = .ok board) (hg : env.genResult = .ok raw)
    (hp : processPayload fen raw = .ok out) :
    ask_coach_live fen env = .ok out := by
  simp only [ask_coach_live, hb, hg, hp]

set_option maxHeartbeats 16000000

/-! ## Claim C5 (Sequence Expander tolerance) -/

def ambFen : String := "k7/8/8/8/8/8/8/K4N1N w - - 0 1"

/-- **C5** (code bug).  The claim — and the spec's deliberate
skip-and-continue policy — says an entry that does not resolve against the
running position is skipped without aborting the rest of the list.  The
`except` tuple in `calculate_fens_for_sequence` names only
`chess.InvalidMoveError` and `chess.IllegalMoveError`; python-chess's third
SAN failure, `AmbiguousMoveError` (a sibling class, raised for a short-form
notation that matches more than one legal move), is not caught.  From
`k7/8/8/8/8/8/8/K4N1N w - - 0 1` (white knights on f1 and h1, both able to
reach g3) the list `["Ng3", "Kb2"]` therefore aborts with an uncaught
exception instead of skipping "Ng3" and retaining "Kb2": the expander
returns no list at all, and the endpoint degrades to its fallback script.
The third conjunct shows the remainder was processable, so the specified
behaviour would have retained it. -/
theorem c5_ambiguous_san_aborts :
    calcFens ["Ng3", "Kb2"] ambFen = .error PyExn.ambiguousMove ∧
    parse_san (posOfFen ambFen) "Ng3" = .error SanErr.ambiguousMove ∧
    calcFens ["Kb2"] ambFen = .ok [("Kb2", "k7/8/8/8/8/8/1K6/5N1N b - - 1 1")] :=
  ⟨rfl, rfl, rfl⟩

/-! ## Claim C6 (expander scenarios) -/

/-- **C6 counterexample.**  The claim says expanding `["e4","Zz9","Nf3"]`
from the standard initial position returns exactly 2 entries ("e4" and
"Nf3").  It returns exactly 1: after "e4" the running position has Black to
move, so the white move "Nf3" is illegal against it and is skipped, exactly
like the malformed "Zz9". -/
theorem c6_counterexample :
    calcFens ["e4", "Zz9", "Nf3"] standardFen =
      .ok [("e4", "rnbqkbnr/pppppppp/8/8/4P3/8/PPPP1PPP/RNBQKBNR b KQkq - 0 1")] ∧
    Except.map List.length (calcFens ["e4", "Zz9", "Nf3"] standardFen) = .ok 1 ∧
    (1 : Nat) ≠ 2 :=
  ⟨rfl, rfl, by decide⟩

/-- **C6 (amended).**  From the standard initial position,
`["e4","e5","Nf3","Nc6"]` expands to 4 entries whose FENs match sequential
application, with nothing skipped; `["e4","Zz9","Nf3"]` expands to exactly 1
entry ("e4"): "Zz9" is dropped as unparseable, and "Nf3" — validated against
the post-e4 position, where Black is to move — is dropped as illegal. -/
theorem c6_expander_scenarios :
    calcFens ["e4", "e5", "Nf3", "Nc6"] standardFen =
      .ok [("e4", "rnbqkbnr/pppppppp/8/8/4P3/8/PPPP1PPP/RNBQKBNR b KQkq - 0 1"),
           ("e5", "rnbqkbnr/pppp1ppp/8/4p3/4P3/8/PPPP1PPP/RNBQKBNR w KQkq - 0 2"),
           ("Nf3", "rnbqkbnr/pppp1ppp/8/4p3/4P3/5N2/PPPP1PPP/RNBQKB1R b KQkq - 1 2"),
           ("Nc6", "r1bqkbnr/pppp1ppp/2n5/4p3/4P3/5N2/PPPP1PPP/RNBQKB1R w KQkq - 2 3")] ∧
    calcFens ["e4", "Zz9", "Nf3"] standardFen =
      .ok [("e4", "rnbqkbnr/pppppppp/8/8/4P3/8/PPPP1PPP/RNBQKBNR b KQkq - 0 1")] ∧
    parse_san standardPos "Zz9" = .error SanErr.invalidMove ∧
    parse_san (posOfFen "rnbqkbnr/pppppppp/8/8/4P3/8/PPPP1PPP/RNBQKBNR b KQkq - 0 1")
        "Nf3" = .error SanErr.illegalMove :=
  ⟨rfl, rfl, rfl, rfl⟩

/-! ## Claim C10 (fallback `lan` is "None" before analysis) -/

/-- **C10.**  `best_move` is initialised to `None` before the `try` block,
so `'best_move' in locals()` always holds and the handler's `"e2e4"`
alternative is dead: when the handler runs before analysis reassigned
`best_move` — which happens exactly when the starting FEN fails to load —
the fallback's single move action carries `lan = str(None) = "None"`. -/
theorem c10_fallback_lan_none (fen : String) (env : Env) (msg : String)
    (h : loadFen fen = .error msg) :
    ask_coach_live fen env = .ok (fallbackJson msg BestMoveVal.noneVal) ∧
    bestMoveInLocals = true ∧
    jField (fallbackJson msg BestMoveVal.noneVal) "actions" =
      some (Json.arr [Json.obj [("type", Json.str "move"),
        ("lan", Json.str "None"),
        ("comment", Json.str "Unable to generate full analysis. Try again.")]]) :=
  ⟨ask_live_load_error h, rfl, rfl⟩

def envNoExternal : Env := ⟨.error "no engine", .error "no model"⟩

/-- Witness for C10 at the unparseable FEN `"not a fen"`. -/
theorem c10_fallback_lan_none_witness :
    ask_coach_live "not a fen" envNoExternal =
      .ok (fallbackJson "expected 8 rows in position part of fen" BestMoveVal.noneVal) ∧
    bestMoveInLocals = true ∧
    jField (fallbackJson "expected 8 rows in position part of fen" BestMoveVal.noneVal)
        "actions" =
      some (Json.arr [Json.obj [("type", Json.str "move"),
        ("lan", Json.str "None"),
        ("comment", Json.str "Unable to generate full analysis. Try again.")]]) :=
  c10_fallback_lan_none "not a fen" envNoExternal
    "expected 8 rows in position part of fen" rfl

/-! ## Claim C9 (propagation policy) -/

def envC9 : Env := ⟨.error "engine down", .error "model down"⟩

/-- **C9 counterexample.**  The claim says an unparseable starting position
is the only failure that reaches the caller as a genuine request failure,
in contrast with the HTTP-success responses of every other case.  In the
code the `ValueError` from `chess.Board(request.fen)` is swallowed by the
same top-level `except Exception` as everything else: the endpoint returns
the ordinary HTTP-success fallback body (here shown in full, with the
`lan = "None"` move action), not a failure. -/
theorem c9_counterexample :
    ask_coach_live "garbage" envC9 =
      .ok (fallbackJson "expected 8 rows in position part of fen" BestMoveVal.noneVal) ∧
    exceptIsOk (ask_coach_live "garbage" envC9) = true :=
  ⟨rfl, rfl⟩

/-- **C9 (amended).**  No failure at all reaches the caller as an HTTP
failure: every live-mode request — including one whose starting position
does not load — yields an HTTP-success response carrying a complete
best-effort ActionScript; a position-load failure short-circuits to the
literal error script (with `best_move` still `None`), its error reported
only through the explanation text. -/
theorem c9_http_success (fen : String) (env : Env) :
    ∃ r : Json, ask_coach_live fen env = .ok r ∧ isCompleteScript r = true ∧
      (∀ msg, loadFen fen = .error msg → r = fallbackJson msg BestMoveVal.noneVal) := by
  cases hl : loadFen fen with
  | error msg =>
    refine ⟨_, ask_live_load_error hl, rfl, ?_⟩
    intro m hm
    injection hm with h2
    rw [h2]
  | ok board =>
    cases hg : env.genResult with
    | error m =>
      exact ⟨_, ask_live_gen_error hl hg, rfl, fun msg hm => Except.noConfusion hm⟩
    | ok raw =>
      cases hp : processPayload fen raw with
      | error e =>
        exact ⟨_, ask_live_payload_error hl hg hp, rfl,
          fun msg hm => Except.noConfusion hm⟩
      | ok out =>
        refine ⟨out, ask_live_payload_ok hl hg hp, ?_,
          fun msg hm => Except.noConfusion hm⟩
        obtain ⟨e, s, a, rfl⟩ := processPayload_shape hp
        rfl

/-- Witness for C9 (amended) at the unparseable FEN `"garbage"`. -/
theorem c9_http_success_witness :
    ∃ r : Json, ask_coach_live "garbage" envC9 = .ok r ∧ isCompleteScript r = true ∧
      (∀ msg, loadFen "garbage" = .error msg →
        r = fallbackJson msg BestMoveVal.noneVal) :=
  c9_http_success "garbage" envC9

/-! ## Claim C1 (liveness of the orchestrator) -/

/-- Does the pipeline fail somewhere between analysis and response assembly
(generation collaborator failure, or any exception inside the payload
handling)? -/
def pipelineFailsAfterAnalysis (fen : String) (env : Env) : Bool :=
  match env.genResult with
  | .error _ => true
  | .ok raw => !(exceptIsOk (processPayload fen raw))

/-- `str(e)` of the exception the handler would see in that case. -/
def pipelineErrMsg (fen : String) (env : Env) : String :=
  match env.genResult with
  | .error m => m
  | .ok raw =>
    match processPayload fen raw with
    | .error e => exnMessage e
    | .ok _ => ""

/-- **C1.**  For every live-mode request whose starting position loads, the
endpoint answers with a complete ActionScript object (explanation,
sequences, actions), and any failure between analysis and response assembly
— a generation failure, a payload that fails to parse, or any exception in
the payload handling — is converted at the orchestrator into the fallback
script whose single `move` action carries the analysis stage's best move;
no failure escapes (`ask_coach_live` yields `.ok` in every case). -/
theorem c1_live_always_complete_script (fen : String) (env : Env) (board : Position)
    (h : loadFen fen = .ok board) :
    (∃ r : Json, ask_coach_live fen env = .ok r ∧ isCompleteScript r = true) ∧
    (pipelineFailsAfterAnalysis fen env = true →
      ask_coach_live fen env =
        .ok (fallbackJson (pipelineErrMsg fen env) (analysisBestMove board env))) := by
  constructor
  · cases hg : env.genResult with
    | error m => exact ⟨_, ask_live_gen_error h hg, rfl⟩
    | ok raw =>
      cases hp : processPayload fen raw with
      | error e => exact ⟨_, ask_live_payload_error h hg hp, rfl⟩
      | ok out =>
        refine ⟨out, ask_live_payload_ok h hg hp, ?_⟩
        obtain ⟨e, s, a, rfl⟩ := processPayload_shape hp
        rfl
  · intro hf
    unfold pipelineFailsAfterAnalysis at hf
    unfold pipelineErrMsg
    cases hg : env.genResult with
    | error m => exact ask_live_gen_error h hg
    | ok raw =>
      rw [hg] at hf
      replace hf : (!exceptIsOk (processPayload fen raw)) = true := hf
      show ask_coach_live fen env =
        .ok (fallbackJson
          (match processPayload fen raw with
           | .error e => exnMessage e
           | .ok _ => "") (analysisBestMove board env))
      cases hp : processPayload fen raw with
      | error e => exact ask_live_payload_error h hg hp
      | ok out =>
        rw [hp] at hf
        simp [exceptIsOk] at hf

def envC1 : Env := ⟨.ok ⟨⟨12, 28, none⟩, 33⟩, .error "model unavailable"⟩

/-- Witness for C1: standard position, generation collaborator failing. -/
theorem c1_live_always_complete_script_witness :
    (∃ r : Json, ask_coach_live standardFen envC1 = .ok r ∧ isCompleteScript r = true) ∧
    (pipelineFailsAfterAnalysis standardFen envC1 = true →
      ask_coach_live standardFen envC1 =
        .ok (fallbackJson (pipelineErrMsg standardFen envC1)
          (analysisBestMove standardPos envC1))) :=
  c1_live_always_complete_script standardFen envC1 standardPos rfl

/-! ## Claim C2 (turn-ownership / legality of returned move actions) -/

def rawC2 : String :=
  "\x7b\"explanation\":\"x\",\"actions\":[\x7b\"type\":\"move\",\"san\":\"Ke9\",\"lan\":\"e7e9\"\x7d]\x7d"

def envC2 : Env := ⟨.ok ⟨⟨12, 28, none⟩, 33⟩, .ok rawC2⟩

/-- **C2 counterexample.**  A generated payload whose `actions` list holds a
`move` item with the notation `"Ke9"` — which does not even parse, let alone
obey turn ownership or legality — is returned to the caller verbatim: the
repair stage performs no validation of action items, and nothing is
dropped. -/
theorem c2_counterexample :
    parse_san standardPos "Ke9" = .error SanErr.invalidMove ∧
    ask_coach_live standardFen envC2 =
      .ok (Json.obj [("explanation", Json.str "x"),
                     ("sequences", Json.arr []),
                     ("actions", Json.arr [Json.obj [("type", Json.str "move"),
                        ("san", Json.str "Ke9"), ("lan", Json.str "e7e9")]])]) :=
  ⟨rfl, rfl⟩

/-- **C2 (amended).**  The `actions` of the returned script are the parsed
payload's own `actions` value, passed through unchanged and defaulted to
`[]`: no turn-ownership or legality validation is applied to action items
(only sequence moves go through the legality-checking expander). -/
theorem c2_actions_passthrough (fen raw : String) (env : Env) (board : Position)
    (fields : List (String × Json)) (out : Json)
    (hb : loadFen fen = .ok board) (hg : env.genResult = .ok raw)
    (hj : json_loads (cleanResponseText raw) = some (Json.obj fields))
    (hp : processPayload fen raw = .ok out) :
    ask_coach_live fen env = .ok out ∧
    jField out "actions" = some ((objGet fields "actions").getD (Json.arr [])) :=
  ⟨ask_live_payload_ok hb hg hp, processPayload_actions hj hp⟩

def fieldsC2 : List (String × Json) :=
  [("explanation", Json.str "x"),
   ("actions", Json.arr [Json.obj [("type", Json.str "move"),
      ("san", Json.str "Ke9"), ("lan", Json.str "e7e9")]])]

def outC2 : Json :=
  Json.obj [("explanation", Json.str "x"), ("sequences", Json.arr []),
            ("actions", Json.arr [Json.obj [("type", Json.str "move"),
               ("san", Json.str "Ke9"), ("lan", Json.str "e7e9")]])]

/-- Witness for C2 (amended) at the `"Ke9"` payload. -/
theorem c2_actions_passthrough_witness :
    ask_coach_live standardFen envC2 = .ok outC2 ∧
    jField outC2 "actions" = some ((objGet fieldsC2 "actions").getD (Json.arr [])) :=
  c2_actions_passthrough standardFen rawC2 envC2 standardPos fieldsC2 outC2
    rfl rfl rfl rfl

/-! ## Claim C3 (defaults for empty generation) -/

def envC3 : Env := ⟨.ok ⟨⟨12, 28, none⟩, 33⟩, .ok "\x7b\x7d"⟩

/-- **C3 counterexample.**  The raw text `{}` parses as structured data,
declares no sequences, and its `actions` field is absent — yet the returned
script's actions list is EMPTY, not the claimed single synthetic move
action. -/
theorem c3_counterexample :
    json_loads (cleanResponseText "\x7b\x7d") = some (Json.obj []) ∧
    ask_coach_live standardFen envC3 =
      .ok (Json.obj [("explanation", Json.str "Analysis complete."),
                     ("sequences", Json.arr []),
                     ("actions", Json.arr [])]) :=
  ⟨rfl, rfl⟩

/-- **C3 (amended).**  Empty raw generation text fails to parse, so the
handler's fallback supplies exactly one synthetic `move` action carrying
`str(best_move)` with the literal comment; but a payload that PARSES,
declares no sequences (key absent, or present with an empty list), and has
absent-or-empty actions, takes the success path and yields an EMPTY actions
list — the default-fill synthesises nothing. -/
theorem c3_empty_generation_fallback (fen : String) (env : Env) (board : Position)
    (hb : loadFen fen = .ok board) :
    (env.genResult = .ok "" →
       ask_coach_live fen env =
         .ok (fallbackJson (exnMessage PyExn.jsonError) (analysisBestMove board env))) ∧
    (∀ msg bm, jField (fallbackJson msg bm) "actions" =
       some (Json.arr [Json.obj [("type", Json.str "move"),
         ("lan", Json.str (bestMoveStr bm)),
         ("comment", Json.str "Unable to generate full analysis. Try again.")]])) ∧
    (∀ raw fields, env.genResult = .ok raw →
       json_loads (cleanResponseText raw) = some (Json.obj fields) →
       (objMem fields "sequences" = false ∨
          objGet fields "sequences" = some (Json.arr [])) →
       (objMem fields "actions" = false ∨
          objGet fields "actions" = some (Json.arr [])) →
       ask_coach_live fen env =
         .ok (Json.obj
           [("explanation",
               (objGet fields "explanation").getD (Json.str "Analysis complete.")),
            ("sequences", Json.arr []),
            ("actions", Json.arr [])])) := by
  refine ⟨?_, ?_, ?_⟩
  · intro hg
    exact ask_live_payload_error hb hg rfl
  · intro msg bm
    rfl
  · intro raw fields hg hj hsq hact
    have hactD : (objGet fields "actions").getD (Json.arr []) = Json.arr [] := by
      rcases hact with h | h
      · rw [objMem_false_objGet h]; rfl
      · rw [h]; rfl
    rcases hsq with hs | hs
    · have hp := @processPayload_noseq fen raw fields hj hs
      rw [hactD] at hp
      exact ask_live_payload_ok hb hg hp
    · have hp := @processPayload_emptyseq fen raw fields hj hs
      rw [hactD] at hp
      exact ask_live_payload_ok hb hg hp

def envC3e : Env := ⟨.ok ⟨⟨12, 28, none⟩, 33⟩, .ok ""⟩

def envC3b : Env := ⟨.ok ⟨⟨12, 28, none⟩, 33⟩, .ok "\x7b\"sequences\": [], \"actions\": []\x7d"⟩

/-- Witness for C3 (amended): empty raw text; the `{}` payload (both keys
absent); and a payload carrying explicitly empty `sequences` and `actions`
lists. -/
theorem c3_empty_generation_fallback_witness :
    ask_coach_live standardFen envC3e =
      .ok (fallbackJson (exnMessage PyExn.jsonError) (analysisBestMove standardPos envC3e)) ∧
    ask_coach_live standardFen envC3 =
      .ok (Json.obj [("explanation", Json.str "Analysis complete."),
        ("sequences", Json.arr []), ("actions", Json.arr [])]) ∧
    ask_coach_live standardFen envC3b =
      .ok (Json.obj [("explanation", Json.str "Analysis complete."),
        ("sequences", Json.arr []), ("actions", Json.arr [])]) :=
  ⟨(c3_empty_generation_fallback standardFen envC3e standardPos rfl).1 rfl,
   (c3_empty_generation_fallback standardFen envC3 standardPos rfl).2.2 "\x7b\x7d" []
     rfl rfl (Or.inl rfl) (Or.inl rfl),
   (c3_empty_generation_fallback standardFen envC3b standardPos rfl).2.2
     "\x7b\"sequences\": [], \"actions\": []\x7d"
     [("sequences", Json.arr []), ("actions", Json.arr [])]
     rfl rfl (Or.inr rfl) (Or.inr rfl)⟩

/-! ## Claim C4 (MalformedPayload iff parse failure) -/

def envC4 : Env := ⟨.ok ⟨⟨12, 28, none⟩, 33⟩, .ok "5"⟩

/-- **C4 counterexample.**  The raw text `5` parses as structured data (the
number 5), yet the fallback path IS taken: `'sequences' in action_script`
raises `TypeError` on a non-dict payload, which the orchestrator catches
like a parse failure.  So "fallback iff the cleaned text fails to parse" is
false in the right-to-left direction. -/
theorem c4_counterexample :
    json_loads (cleanResponseText "5") = some (Json.num "5") ∧
    processPayload standardFen "5" = .error PyExn.typeError ∧
    ask_coach_live standardFen envC4 =
      .ok (fallbackJson (exnMessage PyExn.typeError)
        (BestMoveVal.move ⟨12, 28, none⟩)) :=
  ⟨rfl, rfl, rfl⟩

/-- **C4 (amended).**  A cleaned text that fails to parse always triggers the
fallback, and missing optional fields never do (an object payload with no
`sequences` key always takes the success path, explanation and actions
defaulted) — but parse success does not preclude the fallback: non-object
payloads, ill-shaped sequences, or an ambiguous sequence notation also raise
and divert to it. -/
theorem c4_parse_failure_fallback (fen : String) (env : Env) (board : Position)
    (hb : loadFen fen = .ok board) :
    (∀ raw, env.genResult = .ok raw → json_loads (cleanResponseText raw) = none →
       ask_coach_live fen env =
         .ok (fallbackJson (exnMessage PyExn.jsonError) (analysisBestMove board env))) ∧
    (∀ raw fields, json_loads (cleanResponseText raw) = some (Json.obj fields) →
       objMem fields "sequences" = false →
       processPayload fen raw =
         .ok (Json.obj
           [("explanation",
             (objGet fields "explanation").getD (Json.str "Analysis complete.")),
            ("sequences", Json.arr []),
            ("actions", (objGet fields "actions").getD (Json.arr []))])) := by
  constructor
  · intro raw hg hj
    refine ask_live_payload_error hb hg ?_
    simp only [processPayload, hj]
  · intro raw fields hj hs
    exact processPayload_noseq hj hs

def envC4w : Env := ⟨.error "no engine", .ok "boom"⟩

/-- Witness for C4 (amended): unparseable raw text `boom`, and the `{}`
payload through the success path. -/
theorem c4_parse_failure_fallback_witness :
    ask_coach_live standardFen envC4w =
      .ok (fallbackJson (exnMessage PyExn.jsonError) (analysisBestMove standardPos envC4w)) ∧
    processPayload standardFen "\x7b\x7d" =
      .ok (Json.obj [("explanation", Json.str "Analysis complete."),
                     ("sequences", Json.arr []), ("actions", Json.arr [])]) :=
  ⟨(c4_parse_failure_fallback standardFen envC4w standardPos rfl).1 "boom" rfl rfl,
   (c4_parse_failure_fallback standardFen envC4w standardPos rfl).2 "\x7b\x7d" [] rfl rfl⟩

/-! ## Claim C7 (heuristic Analysis Provider) -/

/-- The evaluation as the claim words it: material balance with pawn 1,
knight 3, bishop 3, rook 5, queen 9, king 0, summed white-positive, then
negated when Black is to move. -/
def materialBalanceSpec (b : Position) : Int :=
  let whiteMat := (squaresAsc.map (fun sq =>
    match pieceAt b sq with
    | some pc => if pc.white then pieceValue pc.pt else 0
    | none => 0)).sum
  let blackMat := (squaresAsc.map (fun sq =>
    match pieceAt b sq with
    | some pc => if pc.white then 0 else pieceValue pc.pt
    | none => 0)).sum
  if b.turn then whiteMat - blackMat else -(whiteMat - blackMat)

/-- The selection policy as the claim words it: the first legal capture in
generation order, else the first legal move landing on one of e4 (28),
d4 (27), e5 (36), d5 (35), else the first legal move. -/
def selectMoveSpec (b : Position) : Option Move :=
  ((legalMoves b).find? (fun m => isCaptureMove b m)) <|>
  (((legalMoves b).find? (fun m => centerSquares.contains m.dst)) <|>
   (legalMoves b).head?)

theorem mock_fold_eq (b : Position) : ∀ (l : List Nat) (acc : Int),
    l.foldl (fun acc sq =>
      match pieceAt b sq with
      | some pc => acc + (if pc.white then pieceValue pc.pt else -pieceValue pc.pt)
      | none => acc) acc
    = acc + ((l.map (fun sq =>
        match pieceAt b sq with
        | some pc => if pc.white then pieceValue pc.pt else 0
        | none => 0)).sum -
      (l.map (fun sq =>
        match pieceAt b sq with
        | some pc => if pc.white then 0 else pieceValue pc.pt
        | none => 0)).sum) := by
  intro l
  induction l with
  | nil => intro acc; simp
  | cons x xs ih =>
    intro acc
    simp only [List.foldl_cons, List.map_cons, List.sum_cons]
    cases hx : pieceAt b x with
    | none =>
      rw [ih]
      ring
    | some pc =>
      rw [ih]
      cases hw : pc.white with
      | true =>
        simp only [hw, if_true]
        ring
      | false =>
        simp only [hw, Bool.false_eq_true, if_false]
        ring

/-- **C7.**  The heuristic Analysis Provider is the pure function
`mock_stockfish_analysis`: its evaluation equals the signed material balance
from the mover's perspective, its move is the first legal capture in
generation order, else the first legal move landing on a central square,
else the first legal move; with no legal moves it yields no best move, and
the caller (the analysis stage of `ask_coach`) then substitutes the fixed
literal `"e2e4"`. -/
theorem c7_mock_analysis_spec (b : Position) (env : Env) (s : String) :
    mock_stockfish_analysis b = (selectMoveSpec b, materialBalanceSpec b) ∧
    (legalMoves b = [] → (mock_stockfish_analysis b).1 = none) ∧
    (env.engineResult = .error s → legalMoves b = [] →
       analysisBestMove b env = BestMoveVal.lit "e2e4") := by
  have hmain : mock_stockfish_analysis b = (selectMoveSpec b, materialBalanceSpec b) := by
    unfold mock_stockfish_analysis selectMoveSpec materialBalanceSpec
    rw [mock_fold_eq b squaresAsc 0]
    cases hleg : legalMoves b with
    | nil => simp
    | cons m ms =>
      simp only [List.isEmpty_cons, Bool.false_eq_true, if_false, Prod.mk.injEq, zero_add]
      refine ⟨?_, by cases b.turn <;> simp⟩
      cases hc : List.find? (fun mv => isCaptureMove b mv) (m :: ms) with
      | some mv => simp [hc]
      | none =>
        cases hcen : List.find? (fun mv => centerSquares.contains mv.dst) (m :: ms) with
        | some mv => simp [hc, hcen]
        | none => simp [hc, hcen]
  refine ⟨hmain, ?_, ?_⟩
  · intro hleg
    rw [hmain]
    simp [selectMoveSpec, hleg]
  · intro heng hleg
    unfold analysisBestMove
    rw [heng]
    have h1 : (mock_stockfish_analysis b).1 = none := by
      rw [hmain]
      simp [selectMoveSpec, hleg]
    rw [h1]

def stalemateFen : String := "7k/5K2/6Q1/8/8/8/8/8 b - - 0 1"
def stalematePos : Position := posOfFen stalemateFen
def envC7 : Env := ⟨.error "engine exploded", .ok ""⟩

/-- Witness for C7 at a stalemate (Black to move, no legal moves): the
heuristic yields no best move and score −9 (from Black's perspective,
against a white queen), and the analysis stage substitutes `"e2e4"`. -/
theorem c7_mock_analysis_spec_witness :
    mock_stockfish_analysis stalematePos = (none, -9) ∧
    analysisBestMove stalematePos envC7 = BestMoveVal.lit "e2e4" := by
  have h := c7_mock_analysis_spec stalematePos envC7 "engine exploded"
  exact ⟨by rw [h.1]; rfl, h.2.2 rfl (by rfl)⟩

/-! ## Claim C8 (fence stripping rule) -/

/-- Everything after the first occurrence of the fence token (claim-side
helper). -/
def dropThroughTok : List Char → List Char
  | [] => []
  | c :: rest => if fenceTok.isPrefixOf (c :: rest) then rest.drop 2 else dropThroughTok rest

/-- Everything before the next occurrence of the fence token (claim-side
helper). -/
def takeUntilTok : List Char → List Char
  | [] => []
  | c :: rest => if fenceTok.isPrefixOf (c :: rest) then [] else c :: takeUntilTok rest

/-- The text between the first and second occurrences of the fence token
(to the end when there is no second occurrence). -/
def interiorFirstSecond (l : List Char) : List Char := takeUntilTok (dropThroughTok l)

/-- The stripping rule in the claim's own steps, applied to the
whitespace-trimmed text (the amendment): if the trimmed text starts with the
fence token, keep only the interior of the first fenced segment, drop a
leading `json` hint, trim; otherwise the trimmed text itself. -/
def claimClean (raw : String) : String :=
  let t := pyStrip raw.data
  if fenceTok.isPrefixOf t then
    String.mk (pyStrip (dropJsonHint (interiorFirstSecond t)))
  else String.mk t

theorem fenceSplitF_head : ∀ (fuel : Nat) (l : List Char), l.length ≤ fuel →
    (fenceSplitF fuel l).getD 0 [] = takeUntilTok l := by
  intro fuel
  induction fuel with
  | zero =>
    intro l hl
    have : l = [] := List.eq_nil_of_length_eq_zero (Nat.le_zero.mp hl)
    subst this
    rfl
  | succ n ih =>
    intro l hl
    match l with
    | [] => rfl
    | c :: rest =>
      by_cases h : fenceTok.isPrefixOf (c :: rest) = true
      · unfold fenceSplitF takeUntilTok
        rw [if_pos h, if_pos h]
        rfl
      · unfold fenceSplitF takeUntilTok
        rw [if_neg h, if_neg h]
        have hrest : (fenceSplitF n rest).getD 0 [] = takeUntilTok rest :=
          ih rest (by simp at hl; omega)
        cases hfs : fenceSplitF n rest with
        | nil =>
          rw [hfs] at hrest
          have h0 : takeUntilTok rest = [] := by simpa using hrest.symm
          simp [h0]
        | cons hd tl =>
          rw [hfs] at hrest
          simp only [List.getD, List.get?] at hrest ⊢
          simpa using hrest

theorem fenceSplit_get1 {l : List Char} (h : fenceTok.isPrefixOf l = true) :
    (fenceSplit l).getD 1 [] = takeUntilTok (l.drop 3) := by
  match l with
  | [] => cases h
  | c :: rest =>
    show (fenceSplitF (c :: rest).length (c :: rest)).getD 1 [] = _
    simp only [List.length_cons]
    unfold fenceSplitF
    rw [if_pos h]
    show (fenceSplitF rest.length (rest.drop 2)).getD 0 [] = takeUntilTok ((c :: rest).drop 3)
    rw [fenceSplitF_head rest.length (rest.drop 2) (by simp)]
    rfl

theorem dropThroughTok_of_prefix {l : List Char} (h : fenceTok.isPrefixOf l = true) :
    dropThroughTok l = l.drop 3 := by
  match l with
  | [] => cases h
  | c :: rest =>
    unfold dropThroughTok
    rw [if_pos h]
    rfl

/-- **C8 counterexample.**  The raw text `" ```x```"` (note the leading
space) does not start with the fence token, so by the claim it should reach
the parser unchanged apart from trimming — i.e. as `"```x```"`.  The code
trims FIRST and then tests for the fence, so it strips the fence and passes
`"x"`. -/
theorem c8_counterexample :
    fenceTok.isPrefixOf (" ```x```".data) = false ∧
    cleanResponseText " ```x```" = "x" ∧
    String.mk (pyStrip (" ```x```".data)) = "```x```" ∧
    cleanResponseText " ```x```" ≠ String.mk (pyStrip (" ```x```".data)) :=
  ⟨rfl, rfl, rfl, by decide⟩

/-- **C8 (amended).**  The cleaning rule is exactly the claim's steps applied
to the whitespace-TRIMMED text: trim; if the trimmed text starts with the
fence token, keep only the text between the first and second occurrences of
the token (to the end when there is no second occurrence), drop a leading
`json` hint token, and trim again; otherwise pass the trimmed text through
unchanged. -/
theorem c8_clean_rule (raw : String) : cleanResponseText raw = claimClean raw := by
  unfold cleanResponseText claimClean
  by_cases h : fenceTok.isPrefixOf (pyStrip raw.data) = true
  · simp only [h, if_true]
    rw [interiorFirstSecond, dropThroughTok_of_prefix h, ← fenceSplit_get1 h]
  · simp only [h, Bool.false_eq_true, if_false]

end ChessChat
